import Mathlib

/-!
Verification of the lmkd (userspace low-memory killer daemon) specification
against the source in `lmkd.cpp`.

The development shallowly embeds the parts of `lmkd.cpp` that the claims
refer to:
  * the memory-pressure decision engine `__mp_event_psi` (level lock,
    kill-in-flight gate, thrashing window accounting, kill-reason
    classification and the `critical_stall` override);
  * the process registry (pid hash plus score-indexed buckets), the
    victim selector `find_and_kill_process`, `proc_get_heaviest`,
    `kill_one_process`, `pid_remove` and the kill-wait bookkeeping;
  * the kill counters (`inc_killcnt` / `get_killcnt`);
  * the control commands `cmd_target` and `apply_proc_prio`.

Machine integers are modelled as `Int`; C's truncating division is
`Int.tdiv`, and C's arithmetic right shift on `int64_t` is `>>>` on `Int`.
External inputs (proc-file parses, clock readings, reaper results,
zoneinfo, PSI statistics) are supplied by explicit environment records.
The floating-point comparison `mem_stats[PSI_FULL].avg10 > stall_limit_critical`
is abstracted as the boolean outcome of that comparison.
-/

namespace Lmkd

/-- OOM score range bound, `lmkd.cpp` line 313. -/
def OOM_SCORE_ADJ_MIN : Int := -1000

/-- OOM score range bound, `lmkd.cpp` line 314. -/
def OOM_SCORE_ADJ_MAX : Int := 1000

/-- Perceptible-app score threshold, `lmkd.cpp` line 99. -/
def PERCEPTIBLE_APP_ADJ : Int := 200

/-- Thrashing window length in ms, `lmkd.cpp` line 112. -/
def THRASHING_RESET_INTERVAL_MS : Int := 1000

/-- Minimum interval between TARGET commands in ms, `lmkd.cpp` line 111. -/
def TARGET_UPDATE_MIN_INTERVAL_MS : Int := 1000

/-- Score-bucket index for a score, `lmkd.cpp` line 559. -/
def ADJTOSLOT (adj : Int) : Int := adj + 1000

/-- Number of score buckets, `lmkd.cpp` line 560. -/
def ADJTOSLOT_COUNT : Int := 2001

/-- Memory pressure levels, `lmkd.cpp` lines 181-186. -/
inductive VLevel where
  | low
  | medium
  | critical
deriving DecidableEq, Repr

/-- Numeric value of a pressure level as in the C enumeration. -/
def VLevel.toNat : VLevel → Nat
  | .low => 0
  | .medium => 1
  | .critical => 2

/-- Zone watermark classification, `lmkd.cpp` lines 2633-2638. -/
inductive ZWmark where
  | wmarkMin
  | wmarkLow
  | wmarkHigh
  | wmarkNone
deriving DecidableEq, Repr

/-- Numeric value of a watermark as in the C enumeration. -/
def ZWmark.toNat : ZWmark → Nat
  | .wmarkMin => 0
  | .wmarkLow => 1
  | .wmarkHigh => 2
  | .wmarkNone => 3

/-- The C comparison `wmark < bound` on the watermark enumeration. -/
def wmLt (a b : ZWmark) : Prop := a.toNat < b.toNat

instance (a b : ZWmark) : Decidable (wmLt a b) := by
  unfold wmLt; infer_instance

/-- Kill reasons distinguished by the decision engine. The numeric reason
codes live in `statslog.h`; only the constructors matter here, with vendor
kills carrying their raw event code. -/
inductive KillReason where
  | noneK
  | pressureAfterKill
  | notResponding
  | lowSwapAndThrashing
  | lowMemAndSwap
  | lowMemAndSwapUtil
  | lowMemAndThrashing
  | directReclAndThrashing
  | directReclStuck
  | lowFilecacheAfterThrashing
  | lowMem
  | vendorKill (code : Int)
deriving DecidableEq, Repr

/-- Reclaim state, `lmkd.cpp` lines 2715-2719. -/
inductive ReclaimState where
  | noReclaim
  | kswapdReclaim
  | directReclaim
deriving DecidableEq, Repr

/-- The `/proc/vmstat` fields the engine reads (`union vmstat`). -/
structure Vmstat where
  workingset_refault : Int
  workingset_refault_file : Int
  nr_inactive_file : Int
  nr_active_file : Int
  pgscan_kswapd : Int
  pgscan_direct : Int
  pgrefill : Int
deriving DecidableEq, Repr

/-- The `/proc/meminfo` fields the engine reads (`union meminfo`), in pages. -/
structure Meminfo where
  nr_free_pages : Int
  cma_free : Int
  total_swap : Int
  free_swap : Int
  easy_available : Int
  active_anon : Int
  inactive_anon : Int
  shmem : Int
deriving DecidableEq, Repr

/-- Per-zone watermark sums, `struct zone_watermarks` (lines 2640-2644). -/
structure Watermarks where
  high_wmark : Int
  low_wmark : Int
  min_wmark : Int
deriving DecidableEq, Repr

/-- Tunables read from the property store, plus constants from repository
headers that are not under `src/`:
`vendor_kill_reason_end` is modelled from the spec (the vendor reason-code
range check of `statslog.h`), and `page_k` is the page size in kB.
`swap_compression` is the source's `swap_compression_ratio`. -/
structure Tun where
  kill_timeout_ms : Int
  swap_free_low_percentage : Int
  swap_compression : Int
  thrashing_limit_pct : Int
  thrashing_critical_pct : Int
  thrashing_limit_decay_pct : Int
  swap_util_max : Int
  direct_reclaim_threshold_ms : Int
  filecache_min_kb : Int
  pressure_after_kill_min_score : Int
  lowmem_min_oom_score : Int
  vendor_kill_reason_end : Int
  page_k : Int
deriving DecidableEq, Repr

/-- `get_free_swap` (lines 2001-2005). -/
def get_free_swap (t : Tun) (mi : Meminfo) : Int :=
  if t.swap_compression ≠ 0 then
    min mi.free_swap (mi.easy_available * t.swap_compression)
  else mi.free_swap

/-- `calc_swap_utilization` (lines 2696-2701). -/
def calc_swap_utilization (t : Tun) (mi : Meminfo) : Int :=
  let swap_used := mi.total_swap - get_free_swap t mi
  let total_swappable := mi.active_anon + mi.inactive_anon + mi.shmem + swap_used
  if 0 < total_swappable then Int.tdiv (swap_used * 100) total_swappable else 0

/-- `get_lowest_watermark` (lines 2651-2666). -/
def get_lowest_watermark (mi : Meminfo) (w : Watermarks) : ZWmark :=
  let nr_free_pages := mi.nr_free_pages - mi.cma_free
  if nr_free_pages < w.min_wmark then .wmarkMin
  else if nr_free_pages < w.low_wmark then .wmarkLow
  else if nr_free_pages < w.high_wmark then .wmarkHigh
  else .wmarkNone

/-- The engine's persistent state: the globals `prev_level`,
`last_kill_pid_or_fd`, `last_kill_tm`, `watermarks`, the wakeup statistic
`wi.skipped_wakeups`, and the statics of `__mp_event_psi`
(lines 2720-2733 and 3060). Times are monotonic milliseconds. -/
structure EngineState where
  prev_level : VLevel
  last_kill_pid_or_fd : Int
  last_kill_tm : Int
  skipped_wakeups : Int
  init_ws_refault : Int
  prev_workingset_refault : Int
  base_file_lru : Int
  init_pgscan_kswapd : Int
  init_pgscan_direct : Int
  init_pgrefill : Int
  killing : Bool
  thrashing_limit : Int
  wmark_update_tm : Int
  thrashing_reset_tm : Int
  prev_thrash_growth : Int
  check_filecache : Bool
  max_thrashing : Int
  first_kill : Bool
  watermarks : Watermarks
deriving DecidableEq, Repr

/-- One invocation's external inputs: the event parameters, the current
time, the proc-file parses (`none` models a parse failure), the
memevent-listener observations, PSI statistics, and the outcome of
`find_and_kill_process` as a function of the min score passed to it. -/
structure MpEnv where
  source_vendor : Bool
  level : VLevel
  vendor_reason : Int
  vendor_min_score : Int
  events : Nat
  now : Int
  vmstat : Option Vmstat
  meminfo : Option Meminfo
  memevent_listener : Bool
  direct_reclaim_running : Bool
  kswapd_running : Bool
  direct_reclaim_duration_ms : Int
  pidfd_supported : Bool
  last_kill_proc_exists : Bool
  mem_event_update_zoneinfo_supported : Bool
  zoneinfo : Option Watermarks
  psi_mem_ok : Bool
  psi_full_avg10_gt_stall_limit : Bool
  find_and_kill_pages : Int → Int

/-- Outcome of one decision-engine invocation. `ignored` is the early
return for a lower-level PSI event; `err` covers the parse-failure and
invalid-vendor-event returns; `noKill` reaches the `no_kill` label without
calling the victim selector; `killAttempt` records the reason, the min
score passed to `find_and_kill_process` and the pages it reported freed. -/
inductive MpResult where
  | ignored
  | err
  | noKill
  | killAttempt (reason : KillReason) (min_score_adj : Int) (pages_freed : Int)
deriving DecidableEq, Repr

/-- `stop_wait_for_proc_kill` as it affects the engine state (line 2371);
fd bookkeeping is modelled with the registry below. -/
def stop_wait_engine (s : EngineState) : EngineState :=
  if s.last_kill_pid_or_fd < 0 then s else { s with last_kill_pid_or_fd := -1 }

/-- `is_kill_pending` (lines 2310-2328): true when a kill is in flight and
either pidfds are supported or `/proc/<pid>` still exists. -/
def is_kill_pending (env : MpEnv) (s : EngineState) : Prop :=
  0 ≤ s.last_kill_pid_or_fd ∧ (env.pidfd_supported ∨ env.last_kill_proc_exists)

instance (env : MpEnv) (s : EngineState) : Decidable (is_kill_pending env s) := by
  unfold is_kill_pending; infer_instance

/-- The thrashing-window update, `__mp_event_psi` lines 2877-2906: on
crossing the window compute the previous window's growth, decay it by the
number of windows passed unless a single over-the-limit window is being
preserved, and reset the baselines; otherwise accumulate this window's
growth. Returns the updated state and the `thrashing` value. -/
def update_thrashing (thrashing_limit_pct : Int) (s : EngineState)
    (workingset_refault_file file_lru now : Int) : EngineState × Int :=
  let since_thrashing_reset_ms := now - s.thrashing_reset_tm
  let r :=
    if THRASHING_RESET_INTERVAL_MS < since_thrashing_reset_ms then
      let prev_thrash_growth :=
        Int.tdiv ((workingset_refault_file - s.init_ws_refault) * 100) (s.base_file_lru + 1)
      let windows_passed := Int.tdiv since_thrashing_reset_ms THRASHING_RESET_INTERVAL_MS
      let decayed :=
        if 1 < windows_passed ∨ prev_thrash_growth < s.thrashing_limit then
          prev_thrash_growth >>> windows_passed.toNat
        else prev_thrash_growth
      ({ s with base_file_lru := file_lru,
                init_ws_refault := workingset_refault_file,
                thrashing_reset_tm := now,
                thrashing_limit := thrashing_limit_pct,
                prev_thrash_growth := decayed }, decayed)
    else
      let thrashing :=
        Int.tdiv ((workingset_refault_file - s.init_ws_refault) * 100) (s.base_file_lru + 1)
      (s, thrashing + s.prev_thrash_growth)
  if r.1.max_thrashing < r.2 then ({ r.1 with max_thrashing := r.2 }, r.2) else r

/-- The inputs of the reason-classification chain (the local variables live
at `lmkd.cpp` line 2935). -/
structure ClassifyIn where
  source_vendor : Bool
  vendor_reason : Int
  vendor_min_score : Int
  cycle_after_kill : Bool
  wmark : ZWmark
  level : VLevel
  events : Nat
  swap_is_low : Bool
  thrashing : Int
  thrashing_limit : Int
  swap_util : Int
  reclaim : ReclaimState
  direct_reclaim_duration_ms : Int
  check_filecache : Bool
  file_lru_kb : Int
deriving DecidableEq, Repr

/-- The outputs of the classification chain: the reason, `min_score_adj`,
`cut_thrashing_limit`, and the updated `check_filecache` static. -/
structure ClassifyOut where
  reason : KillReason
  min_score_adj : Int
  cut_thrashing_limit : Bool
  check_filecache : Bool
deriving DecidableEq, Repr

/-- The C locals `kill_reason`, `min_score_adj` and `cut_thrashing_limit`
(lines 2743, 2748-2749) as they stand when the classification chain runs:
initialised once per invocation, they persist across the one-shot
`goto update_watermarks` at line 3067, so a second pass starts from the
first pass's values, not from the initial ones. -/
structure ClassifyAcc where
  reason : KillReason
  min_score_adj : Int
  cut_thrashing_limit : Bool
deriving DecidableEq, Repr

/-- The initial values of the three locals (lines 2743, 2748-2749). -/
def classify_acc_init : ClassifyAcc := ⟨.noneK, 0, false⟩

/-- The ordered reason-classification chain, `__mp_event_psi` lines
2935-3043. `none` models the early return on an invalid vendor event.
Each branch overwrites exactly the locals the source assigns in it; a
local a branch does not assign keeps its incoming value from `acc`
(relevant on the second pass after the `first_kill` goto). When no
branch fires all three locals are carried through unchanged. -/
def classify_chain (t : Tun) (inp : ClassifyIn) (acc : ClassifyAcc) : Option ClassifyOut :=
  if inp.source_vendor then
    if inp.vendor_reason < 0 ∨ t.vendor_kill_reason_end < inp.vendor_reason ∨
        inp.vendor_min_score < 0 then none
    else some ⟨.vendorKill inp.vendor_reason, inp.vendor_min_score,
      acc.cut_thrashing_limit, inp.check_filecache⟩
  else if inp.cycle_after_kill ∧ wmLt inp.wmark .wmarkLow then
    some ⟨.pressureAfterKill, t.pressure_after_kill_min_score,
      acc.cut_thrashing_limit, inp.check_filecache⟩
  else if inp.level = .critical ∧ inp.events ≠ 0 then
    some ⟨.notResponding, acc.min_score_adj, acc.cut_thrashing_limit, inp.check_filecache⟩
  else if inp.swap_is_low ∧ t.thrashing_limit_pct < inp.thrashing then
    some ⟨.lowSwapAndThrashing,
      if wmLt .wmarkMin inp.wmark ∧ inp.thrashing < t.thrashing_critical_pct then
        PERCEPTIBLE_APP_ADJ + 1 else acc.min_score_adj,
      acc.cut_thrashing_limit, true⟩
  else if inp.swap_is_low ∧ wmLt inp.wmark .wmarkHigh then
    some ⟨.lowMemAndSwap,
      if wmLt .wmarkMin inp.wmark ∧ inp.thrashing < t.thrashing_critical_pct then
        PERCEPTIBLE_APP_ADJ + 1 else acc.min_score_adj,
      acc.cut_thrashing_limit, inp.check_filecache⟩
  else if wmLt inp.wmark .wmarkHigh ∧ t.swap_util_max < 100 ∧
      t.swap_util_max < inp.swap_util then
    some ⟨.lowMemAndSwapUtil, acc.min_score_adj, acc.cut_thrashing_limit, inp.check_filecache⟩
  else if wmLt inp.wmark .wmarkHigh ∧ inp.thrashing_limit < inp.thrashing then
    some ⟨.lowMemAndThrashing,
      if inp.thrashing < t.thrashing_critical_pct then PERCEPTIBLE_APP_ADJ + 1
      else acc.min_score_adj,
      true, true⟩
  else if inp.reclaim = .directReclaim ∧ inp.thrashing_limit < inp.thrashing then
    some ⟨.directReclAndThrashing,
      if inp.thrashing < t.thrashing_critical_pct then PERCEPTIBLE_APP_ADJ + 1
      else acc.min_score_adj,
      true, true⟩
  else if inp.reclaim = .directReclaim ∧ 0 < t.direct_reclaim_threshold_ms ∧
      t.direct_reclaim_threshold_ms < inp.direct_reclaim_duration_ms then
    some ⟨.directReclStuck, acc.min_score_adj, acc.cut_thrashing_limit, inp.check_filecache⟩
  else if inp.check_filecache then
    if inp.file_lru_kb < t.filecache_min_kb then
      some ⟨.lowFilecacheAfterThrashing, PERCEPTIBLE_APP_ADJ + 1,
        acc.cut_thrashing_limit, inp.check_filecache⟩
    else some ⟨acc.reason, acc.min_score_adj, acc.cut_thrashing_limit, false⟩
  else some ⟨acc.reason, acc.min_score_adj, acc.cut_thrashing_limit, inp.check_filecache⟩

/-- The classification chain followed by the cached-app fallback at line
3045: `kill_reason == NONE && wmark < WMARK_HIGH` promotes to a `LOW_MEM`
kill of cached apps at `lowmem_min_oom_score`. On a second pass the
carried reason is never `NONE`, so the fallback cannot fire there. -/
def mp_event_classify (t : Tun) (inp : ClassifyIn) (acc : ClassifyAcc) :
    Option ClassifyOut :=
  match classify_chain t inp acc with
  | none => none
  | some o =>
    if o.reason = .noneK ∧ wmLt inp.wmark .wmarkHigh then
      some { o with reason := .lowMem, min_score_adj := t.lowmem_min_oom_score }
    else some o

/-- The watermark refresh at the `update_watermarks` label (lines
2908-2923): refresh when uninitialised or when zone-refresh events are
unsupported and a minute has passed. `none` models a zoneinfo parse
failure (the engine returns). -/
def wmark_refresh (env : MpEnv) (s : EngineState) : Option EngineState :=
  if s.watermarks.high_wmark = 0 ∨
      (¬env.mem_event_update_zoneinfo_supported ∧ 60000 < env.now - s.wmark_update_tm) then
    match env.zoneinfo with
    | none => none
    | some w => some { s with watermarks := w, wmark_update_tm := env.now }
  else some s

/-- Builds the classification input from the engine's computed values. -/
def mkClassifyIn (env : MpEnv) (cycle_after_kill : Bool) (swap_is_low : Bool)
    (thrashing : Int) (reclaim : ReclaimState) (swap_util file_lru_kb : Int)
    (wmark : ZWmark) (s : EngineState) : ClassifyIn :=
  { source_vendor := env.source_vendor
    vendor_reason := env.vendor_reason
    vendor_min_score := env.vendor_min_score
    cycle_after_kill := cycle_after_kill
    wmark := wmark
    level := env.level
    events := env.events
    swap_is_low := swap_is_low
    thrashing := thrashing
    thrashing_limit := s.thrashing_limit
    swap_util := swap_util
    reclaim := reclaim
    direct_reclaim_duration_ms := env.direct_reclaim_duration_ms
    check_filecache := s.check_filecache
    file_lru_kb := file_lru_kb }

/-- Lines 2908-3087: watermark refresh, watermark classification,
`critical_stall`, the reason classification, the one-shot `first_kill`
watermark refresh (the `goto update_watermarks`), the `critical_stall`
min-score override, the `find_and_kill_process` call and the post-kill
state updates. `acc` carries the C locals `kill_reason`, `min_score_adj`
and `cut_thrashing_limit` across the goto (they are not reinitialised by
it); the retry hands the first pass's classification to the second. The
fuel bounds the `goto` (taken at most once since it clears
`first_kill`). -/
def classify_act (t : Tun) (env : MpEnv) (mi : Meminfo) (cycle_after_kill : Bool)
    (swap_is_low : Bool) (thrashing : Int) (reclaim : ReclaimState)
    (swap_util file_lru_kb : Int) :
    Nat → ClassifyAcc → EngineState → MpResult × EngineState
  | 0, _, s => (.err, s)
  | fuel + 1, acc, s =>
    match wmark_refresh env s with
    | none => (.err, s)
    | some s1 =>
      let wmark := get_lowest_watermark mi s1.watermarks
      let critical_stall := env.psi_mem_ok && env.psi_full_avg10_gt_stall_limit
      match mp_event_classify t
          (mkClassifyIn env cycle_after_kill swap_is_low thrashing reclaim
            swap_util file_lru_kb wmark s1) acc with
      | none => (.err, s1)
      | some o =>
        let s2 := { s1 with check_filecache := o.check_filecache }
        if o.reason = .noneK then (.noKill, s2)
        else if s2.first_kill then
          classify_act t env mi cycle_after_kill swap_is_low thrashing reclaim
            swap_util file_lru_kb fuel
            ⟨o.reason, o.min_score_adj, o.cut_thrashing_limit⟩
            { s2 with first_kill := false,
                      watermarks := { s2.watermarks with high_wmark := 0 } }
        else
          let m := if critical_stall then 0 else o.min_score_adj
          let pages := env.find_and_kill_pages m
          let s3 :=
            if 0 < pages then
              { s2 with killing := true, max_thrashing := 0,
                        thrashing_limit :=
                          if o.cut_thrashing_limit then
                            Int.tdiv (s2.thrashing_limit * (100 - t.thrashing_limit_decay_pct)) 100
                          else s2.thrashing_limit }
            else s2
          (.killAttempt o.reason m pages, s3)

/-- The reclaim-state identification (lines 2844-2854): enter direct or
kswapd reclaim and update the pgscan/pgrefill baselines accordingly. -/
def reclaim_update (vs : Vmstat) (in_direct_reclaim in_kswapd_reclaim : Bool)
    (s : EngineState) : ReclaimState × EngineState :=
  if in_direct_reclaim then
    (.directReclaim,
      { s with init_pgscan_direct := vs.pgscan_direct,
               init_pgscan_kswapd := vs.pgscan_kswapd,
               init_pgrefill := vs.pgrefill })
  else if in_kswapd_reclaim then
    (.kswapdReclaim,
      { s with init_pgscan_kswapd := vs.pgscan_kswapd,
               init_pgrefill := vs.pgrefill })
  else (.noReclaim, s)

/-- The post-kill baseline reset (lines 2815-2824), returning
`cycle_after_kill` and the updated state. -/
def postkill_reset (vs : Vmstat) (workingset_refault_file now : Int)
    (s : EngineState) : Bool × EngineState :=
  if s.killing then
    (true,
      { s with killing := false,
               base_file_lru := vs.nr_inactive_file + vs.nr_active_file,
               init_ws_refault := workingset_refault_file,
               thrashing_reset_tm := now,
               prev_thrash_growth := 0 })
  else (false, s)

/-- The free-swap check (lines 2826-2832). -/
def swap_is_low_calc (t : Tun) (mi : Meminfo) : Bool :=
  if t.swap_free_low_percentage ≠ 0 then
    decide (get_free_swap t mi < Int.tdiv (mi.total_swap * t.swap_free_low_percentage) 100)
  else false

/-- Reclaim-state detection (lines 2834-2854): from the memevent
listener's timestamps when available, otherwise from the
pgscan/pgrefill deltas, then `reclaim_update`. -/
def reclaim_detect (env : MpEnv) (vs : Vmstat) (s : EngineState) :
    ReclaimState × EngineState :=
  let in_direct_reclaim :=
    if env.memevent_listener then env.direct_reclaim_running
    else decide (vs.pgscan_direct ≠ s.init_pgscan_direct)
  let in_kswapd_reclaim :=
    if env.memevent_listener then env.kswapd_running
    else decide (vs.pgscan_kswapd ≠ s.init_pgscan_kswapd ∨
      vs.pgrefill ≠ s.init_pgrefill)
  reclaim_update vs in_direct_reclaim in_kswapd_reclaim s

/-- `__mp_event_psi` from the kill-in-flight gate onward (lines
2790-3087): the gate, the vmstat/meminfo parses, the post-kill baseline
reset, the swap/reclaim state, the early no-kill exit, the thrashing
update and the classification/act section. -/
def step_core (t : Tun) (env : MpEnv) (s : EngineState) : MpResult × EngineState :=
  if is_kill_pending env s ∧
      (t.kill_timeout_ms = 0 ∨ env.now - s.last_kill_tm < t.kill_timeout_ms) then
    (.noKill, { s with skipped_wakeups := s.skipped_wakeups + 1 })
  else
    let s := stop_wait_engine s
    match env.vmstat with
    | none => (.err, s)
    | some vs =>
      let workingset_refault_file :=
        if vs.workingset_refault ≠ 0 then vs.workingset_refault
        else vs.workingset_refault_file
      match env.meminfo with
      | none => (.err, s)
      | some mi =>
        let pr := postkill_reset vs workingset_refault_file env.now s
        let rs := reclaim_detect env vs pr.2
        if rs.1 = .noReclaim ∧ workingset_refault_file = pr.2.prev_workingset_refault ∧
            ¬env.source_vendor then
          (.noKill, rs.2)
        else
          let s := { rs.2 with prev_workingset_refault := workingset_refault_file }
          let ut := update_thrashing t.thrashing_limit_pct s workingset_refault_file
            (vs.nr_inactive_file + vs.nr_active_file) env.now
          let file_lru_kb := (vs.nr_inactive_file + vs.nr_active_file) * t.page_k
          classify_act t env mi pr.1 (swap_is_low_calc t mi) ut.2 rs.1
            (calc_swap_utilization t mi) file_lru_kb 2 classify_acc_init ut.1

/-- One full invocation of `__mp_event_psi` (lines 2713-3115, excluding
the polling-parameter update): the PSI level lock and level reset
(lines 2772-2788) followed by `step_core`. -/
def mp_event_step (t : Tun) (env : MpEnv) (s : EngineState) : MpResult × EngineState :=
  if ¬env.source_vendor then
    if 0 < env.events then
      if env.level.toNat < s.prev_level.toNat then (.ignored, s)
      else step_core t env { s with prev_level := env.level }
    else step_core t env { s with prev_level := .low }
  else step_core t env s

/-- A process registry record, `struct proc` (lines 539-548). A `pidfd`
of `-1` means no process FD. -/
structure ProcRec where
  pid : Int
  pidfd : Int
  uid : Int
  oomadj : Int
  reg_pid : Int
  valid : Bool
deriving DecidableEq, Repr

/-- The registry's two indexes: the pid hash (`pidhash`, flattened to one
list) and the intrusive score buckets (`procadjslot_list`), represented as
head-first lists of pids per bucket index. -/
structure Registry where
  hash : List ProcRec
  buckets : Int → List Int

/-- The empty registry. -/
def Registry.empty : Registry := { hash := [], buckets := fun _ => [] }

/-- `pid_lookup` (lines 909-917). -/
def pid_lookup (r : Registry) (pid : Int) : Option ProcRec :=
  r.hash.find? (fun p => p.pid == pid)

/-- `adjslot_insert` at the bucket head (lines 919-926 via `proc_slot`). -/
def adjslot_insert_head (r : Registry) (slot pid : Int) : Registry :=
  { r with buckets := fun i => if i = slot then pid :: r.buckets i else r.buckets i }

/-- `adjslot_remove` (lines 928-934): unlink the record's node from the
intrusive list it is in, i.e. drop the pid from every bucket. -/
def proc_unslot (r : Registry) (pid : Int) : Registry :=
  { r with buckets := fun i => (r.buckets i).filter (fun q => q ≠ pid) }

/-- `proc_insert` (lines 957-963): add to the pid hash and to the bucket
of the record's score. -/
def proc_insert (r : Registry) (p : ProcRec) : Registry :=
  adjslot_insert_head { r with hash := p :: r.hash } (ADJTOSLOT p.oomadj) p.pid

/-- The registry part of `pid_remove` (lines 966-993). -/
def pid_remove_reg (r : Registry) (pid : Int) : Registry :=
  match pid_lookup r pid with
  | none => r
  | some _ => proc_unslot { r with hash := r.hash.filter (fun q => q.pid ≠ pid) } pid

/-- The test of `claim_record` (lines 702-713). -/
def claim_record_ok (p : ProcRec) (cred : Int) : Bool :=
  p.reg_pid == cred || p.reg_pid == 0

/-- Update the record with the given pid in the hash. -/
def set_record (r : Registry) (pid : Int) (f : ProcRec → ProcRec) : Registry :=
  { r with hash := r.hash.map (fun q => if q.pid == pid then f q else q) }

/-- `pid_invalidate` (lines 995-1002). -/
def pid_invalidate_reg (r : Registry) (pid : Int) : Registry :=
  set_record r pid (fun q => { q with valid := false })

/-- `remove_claims` (lines 716-727): reset the registrant of all records
owned by a disconnecting peer. -/
def remove_claims_reg (r : Registry) (cred : Int) : Registry :=
  { r with hash := r.hash.map (fun q => if q.reg_pid == cred then { q with reg_pid := 0 } else q) }

/-- Modelled from the spec: `PROC_TYPE_APP` of the repository's `lmkd.h`
header (the process-type enumeration), which is not under `src/`. -/
def PROC_TYPE_APP : Int := 0

/-- Modelled from the spec: `PROC_TYPE_FIRST` of the repository's
`lmkd.h` header, which is not under `src/`. -/
def PROC_TYPE_FIRST : Int := 0

/-- Arguments of a `PROCPRIO` command (`struct lmk_procprio`). -/
structure ProcPrioParams where
  pid : Int
  uid : Int
  oomadj : Int
  ptype : Int
deriving DecidableEq, Repr

/-- Environment of `apply_proc_prio` / `register_oom_adj_proc`:
`proc_type_count` is `PROC_TYPE_COUNT` of `lmkd.h` (not under `src/`,
modelled from the spec's process-type enumeration); `status_tgid` is the
combined `read_proc_status` + Tgid parse; `oom_score_adj_write_ok` is the
`writefilestring` to `/proc/<pid>/oom_score_adj`; `pidfd_for` the
`pidfd_open` result. -/
structure PrioEnv where
  proc_type_count : Int
  status_tgid : Int → Option Int
  oom_score_adj_write_ok : Int → Bool
  use_inkernel_interface : Bool
  per_app_memcg : Bool
  pidfd_supported : Bool
  pidfd_for : Int → Int

/-- The effective score stored by `register_oom_adj_proc`: the
per-app-memcg soft-limit branch (lines 1142-1169) rewrites scores in
[600,700) to 200 for APP records. -/
def register_score (env : PrioEnv) (params : ProcPrioParams) : Int :=
  if params.ptype = PROC_TYPE_APP ∧ env.per_app_memcg ∧ 600 ≤ params.oomadj ∧
      params.oomadj < 700 then 200
  else params.oomadj

/-- `register_oom_adj_proc` (lines 1133-1226) as it affects the registry:
a new pid is inserted (unless `pidfd_open` fails), an existing record is
re-bucketed under the new score when the caller may claim it. -/
def register_oom_adj_proc (env : PrioEnv) (params : ProcPrioParams) (cred : Int)
    (r : Registry) : Registry :=
  let oom_adj_score := register_score env params
  match pid_lookup r params.pid with
  | none =>
    if env.pidfd_supported ∧ env.pidfd_for params.pid < 0 then r
    else
      proc_insert r
        { pid := params.pid,
          pidfd := if env.pidfd_supported then env.pidfd_for params.pid else -1,
          uid := params.uid, oomadj := oom_adj_score, reg_pid := cred, valid := true }
  | some procp =>
    if claim_record_ok procp cred then
      let r1 := set_record r params.pid
        (fun q => { q with reg_pid := cred, oomadj := oom_adj_score })
      adjslot_insert_head (proc_unslot r1 params.pid) (ADJTOSLOT oom_adj_score) params.pid
    else r

/-- Result of `apply_proc_prio`: whether a write to
`/proc/<pid>/oom_score_adj` was attempted, and the registry afterwards. -/
structure PrioResult where
  wrote_oom_score_adj : Bool
  reg : Registry

/-- `apply_proc_prio` (lines 1228-1272): validate `oomadj` and `ptype`,
reject non-thread-group-leaders, then write the score and register. -/
def apply_proc_prio (env : PrioEnv) (params : ProcPrioParams) (cred : Int)
    (r : Registry) : PrioResult :=
  if params.oomadj < OOM_SCORE_ADJ_MIN ∨ OOM_SCORE_ADJ_MAX < params.oomadj then
    ⟨false, r⟩
  else if params.ptype < PROC_TYPE_FIRST ∨ env.proc_type_count ≤ params.ptype then
    ⟨false, r⟩
  else
    let tgid_ok : Bool :=
      match env.status_tgid params.pid with
      | some tgid => tgid == params.pid
      | none => true
    if !tgid_ok then ⟨false, r⟩
    else if ¬env.oom_score_adj_write_ok params.pid then ⟨true, r⟩
    else if env.use_inkernel_interface then ⟨true, r⟩
    else ⟨true, register_oom_adj_proc env params cred r⟩

/-- Registry states reachable through the operations that mutate the
registry in the source: `register_oom_adj_proc` (from `PROCPRIO` /
`PROCS_PRIO`), `pid_remove` (from `PROCREMOVE`, `PROCPURGE`, failed and
successful kills, and `proc_get_heaviest` garbage collection),
`pid_invalidate` (watchdog) and `remove_claims` (peer disconnect). -/
inductive Reach : Registry → Prop where
  | empty : Reach Registry.empty
  | register (env : PrioEnv) (params : ProcPrioParams) (cred : Int) {r : Registry} :
      Reach r → Reach (register_oom_adj_proc env params cred r)
  | remove (pid : Int) {r : Registry} : Reach r → Reach (pid_remove_reg r pid)
  | invalidate (pid : Int) {r : Registry} : Reach r → Reach (pid_invalidate_reg r pid)
  | unclaim (cred : Int) {r : Registry} : Reach r → Reach (remove_claims_reg r cred)

/-- The kill counters (lines 568-576): the dense index array (255 meaning
unassigned), the compact counter array (uint16), the next free counter
index and the total counter. -/
structure KillcntState where
  killcnt_idx : Int → Nat
  killcnt : Nat → Nat
  killcnt_free_idx : Nat
  killcnt_total : Nat

/-- `inc_killcnt` (lines 1351-1374). Counters are uint16 and wrap;
the total is a C `int`, modelled as unbounded. -/
def inc_killcnt (k : KillcntState) (oomadj : Int) : KillcntState :=
  let slot := ADJTOSLOT oomadj
  let idx := k.killcnt_idx slot
  let k1 :=
    if idx = 255 then
      if k.killcnt_free_idx < 32 then
        { k with
          killcnt_idx := fun i => if i = slot then k.killcnt_free_idx else k.killcnt_idx i,
          killcnt := fun j => if j = k.killcnt_free_idx then 1 else k.killcnt j,
          killcnt_free_idx := k.killcnt_free_idx + 1 }
      else k
    else
      { k with killcnt := fun j => if j = idx then (k.killcnt j + 1) % 65536 else k.killcnt j }
  { k1 with killcnt_total := k1.killcnt_total + 1 }

/-- The summation loop of `get_killcnt` (lines 1387-1394). -/
def killcnt_sum_loop (k : KillcntState) : Int → Int → Nat → Nat
  | _, _, 0 => 0
  | min_oomadj, max_oomadj, fuel + 1 =>
    if min_oomadj ≤ max_oomadj ∧ ADJTOSLOT min_oomadj < ADJTOSLOT_COUNT then
      (let idx := k.killcnt_idx (ADJTOSLOT min_oomadj)
       if idx ≠ 255 then k.killcnt idx else 0) +
        killcnt_sum_loop k (min_oomadj + 1) max_oomadj fuel
    else 0

/-- `get_killcnt` (lines 1376-1397). -/
def get_killcnt (k : KillcntState) (min_oomadj max_oomadj : Int) : Nat :=
  if max_oomadj < min_oomadj then 0
  else if OOM_SCORE_ADJ_MAX < min_oomadj then k.killcnt_total
  else killcnt_sum_loop k min_oomadj max_oomadj ((max_oomadj - min_oomadj).toNat + 1)

/-- The per-score kill counter for a score: the compact-array entry its
index points to, zero when no index is assigned or the score has no slot. -/
def killcnt_at (k : KillcntState) (adj : Int) : Nat :=
  if ADJTOSLOT adj < ADJTOSLOT_COUNT then
    (let idx := k.killcnt_idx (ADJTOSLOT adj)
     if idx ≠ 255 then k.killcnt idx else 0)
  else 0

/-- The parsed `/proc/<pid>/status` fields `kill_one_process` checks:
Tgid, VmRSS and VmSwap (absent fields modelled as `none`). -/
structure KStatus where
  tgid : Int
  rss_kb : Option Int
  swap_kb : Option Int
deriving DecidableEq, Repr

/-- Environment of the victim selector and killer: proc-file reads per
pid, the `cmdline` read, the reaper verdict, pidfd support, the page size
in kB and the current time. -/
structure KillEnv where
  pidfd_supported : Bool
  page_k : Int
  now : Int
  statm_rss : Int → Option Int
  status : Int → Option KStatus
  cmdline_ok : Int → Bool
  reaper_ok : Int → Bool

/-- The killer-side mutable state: the registry, the kill-in-flight
pid-or-fd and timestamp, the set of open process FDs (as a list), and the
kill counters. -/
structure KState where
  reg : Registry
  last_kill_pid_or_fd : Int
  last_kill_tm : Int
  open_fds : List Int
  kc : KillcntState

/-- `stop_wait_for_proc_kill` (lines 2334-2372): when a wait is in
progress, close the pidfd (when supported) and clear the wait slot. -/
def stop_wait_for_proc_kill (env : KillEnv) (k : KState) : KState :=
  if k.last_kill_pid_or_fd < 0 then k
  else
    let k1 :=
      if env.pidfd_supported then
        { k with open_fds := k.open_fds.filter (fun f => f ≠ k.last_kill_pid_or_fd) }
      else k
    { k1 with last_kill_pid_or_fd := -1 }

/-- `start_wait_for_proc_kill` (lines 2393-2419); the epoll registration
is modelled as succeeding. -/
def start_wait_for_proc_kill (env : KillEnv) (k : KState) (pid_or_fd : Int) : KState :=
  let k1 := if 0 ≤ k.last_kill_pid_or_fd then stop_wait_for_proc_kill env k else k
  { k1 with last_kill_pid_or_fd := pid_or_fd }

/-- `pid_remove` (lines 966-993) over the killer state: unlink from both
indexes and close the process FD unless it is the kill-in-flight FD. -/
def pid_remove (k : KState) (pid : Int) : KState :=
  match pid_lookup k.reg pid with
  | none => k
  | some procp =>
    { k with
      reg := pid_remove_reg k.reg pid,
      open_fds :=
        if 0 ≤ procp.pidfd ∧ procp.pidfd ≠ k.last_kill_pid_or_fd then
          k.open_fds.filter (fun f => f ≠ procp.pidfd)
        else k.open_fds }

/-- `kill_one_process` (lines 2421-2533) in the default build (the
free-memory hook returns 0): the status re-read with TGID and RSS/Swap
checks, the cmdline read, the kill-wait start, the reaper call with its
failure path, the kill bookkeeping, and the final record removal.
Returns the C result (`-1` on failure, freed RSS in pages on success). -/
def kill_one_process (env : KillEnv) (k : KState) (procp : ProcRec) : Int × KState :=
  match (if procp.valid then env.status procp.pid else none) with
  | none => (-1, pid_remove k procp.pid)
  | some st =>
    if st.tgid ≠ procp.pid then (-1, pid_remove k procp.pid)
    else
      match st.rss_kb with
      | none => (-1, pid_remove k procp.pid)
      | some rss_kb =>
        match st.swap_kb with
        | none => (-1, pid_remove k procp.pid)
        | some _ =>
          if ¬env.cmdline_ok procp.pid then (-1, pid_remove k procp.pid)
          else
            let k1 := start_wait_for_proc_kill env k
              (if procp.pidfd < 0 then procp.pid else procp.pidfd)
            if ¬env.reaper_ok procp.pid then
              (-1, pid_remove (stop_wait_for_proc_kill env k1) procp.pid)
            else
              let k2 := { k1 with last_kill_tm := env.now,
                                  kc := inc_killcnt k1.kc procp.oomadj }
              (Int.tdiv rss_kb env.page_k, pid_remove k2 procp.pid)

/-- `proc_get_size` (lines 1080-1104): RSS from `/proc/<pid>/statm`,
`-1` when the read fails. -/
def proc_get_size (env : KillEnv) (pid : Int) : Int :=
  match env.statm_rss pid with
  | none => -1
  | some rss => rss

/-- The scan loop of `proc_get_heaviest` (lines 2241-2255): records whose
statm read fails are removed; the first strictly-largest RSS wins. -/
def heaviest_loop (env : KillEnv) : List Int → KState → Option Int → Int → KState × Option Int
  | [], k, best, _ => (k, best)
  | pid :: rest, k, best, maxsize =>
    let tasksize := proc_get_size env pid
    if tasksize < 0 then heaviest_loop env rest (pid_remove k pid) best maxsize
    else if maxsize < tasksize then heaviest_loop env rest k (some pid) tasksize
    else heaviest_loop env rest k best maxsize

/-- `proc_get_heaviest` (lines 2232-2257), including the single-element
shortcut that skips procfs. -/
def proc_get_heaviest (env : KillEnv) (k : KState) (oomadj : Int) :
    KState × Option ProcRec :=
  match k.reg.buckets (ADJTOSLOT oomadj) with
  | [pid] => (k, pid_lookup k.reg pid)
  | l =>
    let r := heaviest_loop env l k none 0
    (r.1, match r.2 with
          | none => none
          | some pid => pid_lookup r.1.reg pid)

/-- `proc_adj_tail` (lines 2212-2214) resolved to the record. -/
def proc_adj_tail (k : KState) (oomadj : Int) : Option ProcRec :=
  match (k.reg.buckets (ADJTOSLOT oomadj)).getLast? with
  | none => none
  | some pid => pid_lookup k.reg pid

/-- One victim-selection attempt as recorded for the trace: the score
walked, the candidate pid, whether the heaviest-selection rule was in
effect, and the `kill_one_process` result. -/
structure Attempt where
  score : Int
  pid : Int
  heaviest : Bool
  res : Int
deriving DecidableEq, Repr

/-- The candidate choice of `find_and_kill_process` line 2558. -/
def fak_pick (env : KillEnv) (k : KState) (choose_heaviest : Bool) (i : Int) :
    KState × Option ProcRec :=
  if choose_heaviest then proc_get_heaviest env k i else (k, proc_adj_tail k i)

/-- The inner candidate loop of `find_and_kill_process` (lines 2557-2568):
try candidates at one score until a kill result is non-negative or the
bucket is exhausted; `ks` is the persistent `killed_size` variable. The
fuel bounds the loop (every iteration removes the candidate's record). -/
def fak_inner (env : KillEnv) (choose_heaviest : Bool) (i : Int) :
    Nat → Int → KState → List Attempt → Int × KState × List Attempt
  | 0, ks, k, tr => (ks, k, tr)
  | fuel + 1, ks, k, tr =>
    let pk := fak_pick env k choose_heaviest i
    match pk.2 with
    | none => (ks, pk.1, tr)
    | some procp =>
      let kr := kill_one_process env pk.1 procp
      let tr2 := tr ++ [⟨i, procp.pid, choose_heaviest, kr.1⟩]
      if 0 ≤ kr.1 then (kr.1, kr.2, tr2)
      else fak_inner env choose_heaviest i fuel kr.1 kr.2 tr2

/-- The score walk of `find_and_kill_process` (lines 2546-2572). The
sticky `choose_heaviest_task` flag is recomputed per score, which agrees
with the source because the walk descends: once a score at or below
`PERCEPTIBLE_APP_ADJ` is visited, every later score is also at or below
it. `ks` is the persistent `killed_size`: the walk stops as soon as it is
nonzero after a score's candidate loop. -/
def fak_outer (env : KillEnv) (kill_heaviest_task : Bool) (min_score_adj : Int) :
    Nat → Int → Int → KState → List Attempt → Int × KState × List Attempt
  | 0, _, ks, k, tr => (ks, k, tr)
  | fuel + 1, i, ks, k, tr =>
    if i < min_score_adj then (ks, k, tr)
    else
      let choose := kill_heaviest_task || decide (i ≤ PERCEPTIBLE_APP_ADJ)
      let r := fak_inner env choose i (k.reg.hash.length + 1) ks k tr
      if r.1 ≠ 0 then r
      else fak_outer env kill_heaviest_task min_score_adj fuel (i - 1) r.1 r.2.1 r.2.2

/-- `find_and_kill_process` (lines 2539-2575), instrumented with the
trace of kill attempts. -/
def find_and_kill_process (env : KillEnv) (kill_heaviest_task : Bool)
    (min_score_adj : Int) (k : KState) : Int × KState × List Attempt :=
  fak_outer env kill_heaviest_task min_score_adj
    ((OOM_SCORE_ADJ_MAX - min_score_adj).toNat + 2) OOM_SCORE_ADJ_MAX 0 k []

/-- The state `cmd_target` mutates: the legacy minfree/adj tables
(modelled as the meaningful `lowmem_targets_size`-prefix), the
rate-limit timestamp and the published `sys.lmk.minfree_levels` property
(modelled as the pair list the string is built from). -/
structure TargetState where
  lowmem_minfree : List Int
  lowmem_adj : List Int
  lowmem_targets_size : Nat
  last_req_tm : Int
  minfree_levels_prop : List (Int × Int)
deriving DecidableEq, Repr

/-- `cmd_target` (lines 1412-1486): argument-count validation, the
1000 ms rate limit, then the table replacement and property publication.
`max_targets` is `MAX_TARGETS` from `lmkd.h` (not under `src/`). -/
def cmd_target (max_targets : Nat) (ntargets : Int) (pairs : List (Int × Int))
    (now : Int) (st : TargetState) : TargetState :=
  if ntargets < 1 ∨ (max_targets : Int) < ntargets then st
  else if now - st.last_req_tm < TARGET_UPDATE_MIN_INTERVAL_MS then st
  else
    { lowmem_minfree := (pairs.take ntargets.toNat).map (fun p => p.1),
      lowmem_adj := (pairs.take ntargets.toNat).map (fun p => p.2),
      lowmem_targets_size := ntargets.toNat,
      last_req_tm := now,
      minfree_levels_prop := pairs.take ntargets.toNat }

/-- Concrete engine state for the C8 witness: previous level critical. -/
def c8w_s : EngineState :=
  EngineState.mk .critical 5 0 0 0 0 0 0 0 0 false 30 0 0 0 false 0 false ⟨0, 0, 0⟩

/-- Concrete environment for the C8 witness: a LOW event wakeup. -/
def c8w_env : MpEnv :=
  MpEnv.mk false .low 0 0 1 50 none none false false false 0 true true false none
    false false (fun _ => 0)

/-- Concrete tunables for the C8 witness. -/
def c8w_t : Tun := Tun.mk 100 10 1 30 90 50 100 0 0 0 701 1 4

/-- Concrete engine state for the C2 counterexample: a kill is in flight
(fd 5, killed at t=0) and the stored level is MEDIUM. -/
def c2cex_s : EngineState :=
  EngineState.mk .medium 5 0 0 0 0 0 0 0 0 false 30 0 0 0 false 0 false ⟨0, 0, 0⟩

/-- Concrete environment for the C2 counterexample: a LOW event wakeup at
t=50, within the 100 ms kill timeout. -/
def c2cex_env : MpEnv :=
  MpEnv.mk false .low 0 0 1 50 none none false false false 0 true true false none
    false false (fun _ => 0)

/-- Concrete tunables for the C2 counterexample: `kill_timeout_ms = 100`. -/
def c2cex_t : Tun := Tun.mk 100 10 1 30 90 50 100 0 0 0 701 1 4

/-- Concrete engine state for the C2 witness. -/
def c2w_s : EngineState :=
  EngineState.mk .medium 5 0 0 0 0 0 0 0 0 false 30 0 0 0 false 0 false ⟨0, 0, 0⟩

/-- Concrete environment for the C2 witness: a CRITICAL event that passes
the level filter while the kill wait is still in force. -/
def c2w_env : MpEnv :=
  MpEnv.mk false .critical 0 0 1 50 none none false false false 0 true true false none
    false false (fun _ => 0)

/-- Concrete tunables for the C2 witness. -/
def c2w_t : Tun := Tun.mk 100 10 1 30 90 50 100 0 0 0 701 1 4

/-- The Step-9 table of the spec, as a predicate on a classification
outcome: for each reason, the min score the spec's table specifies
(201 is perceptible+1). -/
def tableOk (t : Tun) (inp : ClassifyIn) (o : ClassifyOut) : Prop :=
  (o.reason = .pressureAfterKill → o.min_score_adj = t.pressure_after_kill_min_score) ∧
  (o.reason = .notResponding → o.min_score_adj = 0) ∧
  (o.reason = .lowSwapAndThrashing →
    o.min_score_adj =
      if wmLt .wmarkMin inp.wmark ∧ inp.thrashing < t.thrashing_critical_pct then 201
      else 0) ∧
  (o.reason = .lowMemAndSwap →
    o.min_score_adj =
      if wmLt .wmarkMin inp.wmark ∧ inp.thrashing < t.thrashing_critical_pct then 201
      else 0) ∧
  (o.reason = .lowMemAndSwapUtil → o.min_score_adj = 0) ∧
  (o.reason = .lowMemAndThrashing →
    o.min_score_adj = if inp.thrashing < t.thrashing_critical_pct then 201 else 0) ∧
  (o.reason = .directReclAndThrashing →
    o.min_score_adj = if inp.thrashing < t.thrashing_critical_pct then 201 else 0) ∧
  (o.reason = .directReclStuck → o.min_score_adj = 0) ∧
  (o.reason = .lowMem → o.min_score_adj = t.lowmem_min_oom_score) ∧
  (∀ code, o.reason = .vendorKill code → o.min_score_adj = inp.vendor_min_score)

/-- Concrete engine state for the C1 witness. -/
def c1w_s : EngineState :=
  EngineState.mk .low (-1) 0 0 0 0 0 0 0 0 false 30 0 0 0 false 0 false ⟨0, 0, 0⟩

/-- Concrete environment for the C1 witness: a CRITICAL PSI event with
healthy parses, producing a NOT_RESPONDING kill of 5 pages. -/
def c1w_env : MpEnv :=
  MpEnv.mk false .critical 0 0 1 50
    (some (Vmstat.mk 1 0 10 10 0 0 0))
    (some (Meminfo.mk 100 0 100 100 100 10 10 10))
    false false false 0 true true false (some ⟨1, 1, 1⟩)
    false false (fun _ => 5)

/-- Concrete tunables for the C1 witness. -/
def c1w_t : Tun := Tun.mk 100 10 1 30 90 50 100 0 0 0 701 1 4

/-- The classification part of the C1 characterization, stated at the
point where `__mp_event_psi` enters the `update_watermarks` /
classification section with the pipeline values already computed. Every
quantifier is pinned by a defining equation on the invocation's own data:
the refreshed state comes from `wmark_refresh`, the classification input
is literally `mkClassifyIn` on that state's watermark, and the first pass
runs from the initial locals `classify_acc_init`. Either the invocation
is past its first kill and the emitted reason and min score are the
first (only) pass's, or the one-shot `first_kill` retry runs a second
pass from the state with `high_wmark` forced to 0, starting from the
first pass's locals, and the kill uses the second pass's outcome. -/
def classify_spec (t : Tun) (env : MpEnv) (mi : Meminfo) (cyc swl : Bool)
    (thr : Int) (rc : ReclaimState) (su fl : Int) (s : EngineState)
    (r : KillReason) (m : Int) : Prop :=
  ∃ s1, wmark_refresh env s = some s1 ∧
    ∃ o1, mp_event_classify t
        (mkClassifyIn env cyc swl thr rc su fl
          (get_lowest_watermark mi s1.watermarks) s1) classify_acc_init = some o1 ∧
      o1.reason ≠ .noneK ∧
      tableOk t (mkClassifyIn env cyc swl thr rc su fl
        (get_lowest_watermark mi s1.watermarks) s1) o1 ∧
      ((s1.first_kill = false ∧ r = o1.reason ∧
          m = (if env.psi_mem_ok && env.psi_full_avg10_gt_stall_limit then 0
               else o1.min_score_adj)) ∨
        (s1.first_kill = true ∧
          ∃ s2, wmark_refresh env
              { s1 with check_filecache := o1.check_filecache,
                        first_kill := false,
                        watermarks := { s1.watermarks with high_wmark := 0 } } =
              some s2 ∧
            ∃ o2, mp_event_classify t
                (mkClassifyIn env cyc swl thr rc su fl
                  (get_lowest_watermark mi s2.watermarks) s2)
                ⟨o1.reason, o1.min_score_adj, o1.cut_thrashing_limit⟩ = some o2 ∧
              r = o2.reason ∧
              m = (if env.psi_mem_ok && env.psi_full_avg10_gt_stall_limit then 0
                   else o2.min_score_adj)))

/-- The full C1 characterization of a kill emitted by `step_core`: the
pipeline values (post-kill cycle flag, free-swap check, thrashing,
reclaim state, swap utilization, file LRU) are the invocation's own, each
computed by the corresponding embedded source function from the parsed
`vmstat`/`meminfo`, and the classification runs on exactly those values
(`classify_spec`). -/
def kill_classified (t : Tun) (env : MpEnv) (s0 : EngineState)
    (r : KillReason) (m : Int) : Prop :=
  ∃ vs mi, env.vmstat = some vs ∧ env.meminfo = some mi ∧
    (let sw := stop_wait_engine s0
     let wrf := if vs.workingset_refault ≠ 0 then vs.workingset_refault
                else vs.workingset_refault_file
     let pr := postkill_reset vs wrf env.now sw
     let rs := reclaim_detect env vs pr.2
     let sA := { rs.2 with prev_workingset_refault := wrf }
     let ut := update_thrashing t.thrashing_limit_pct sA wrf
       (vs.nr_inactive_file + vs.nr_active_file) env.now
     classify_spec t env mi pr.1 (swap_is_low_calc t mi) ut.2 rs.1
       (calc_swap_utilization t mi)
       ((vs.nr_inactive_file + vs.nr_active_file) * t.page_k) ut.1 r m)

/-- Engine state for the C1 counterexample: the very first kill of the
daemon's lifetime is about to happen (`first_kill` still true), a kill
completed in the previous cycle (`killing`), and the stale watermarks
⟨100, 50, 20⟩ put the 10 free pages below min. -/
def c1cex_s : EngineState :=
  EngineState.mk .low (-1) 0 0 0 0 0 0 0 0 true 30 0 0 0 false 0 true ⟨100, 50, 20⟩

/-- Environment for the C1 counterexample: a CRITICAL PSI event; the
zoneinfo re-read forced by the first-kill retry yields fresh watermarks
⟨5, 3, 1⟩ under which the 10 free pages breach nothing. -/
def c1cex_env : MpEnv :=
  MpEnv.mk false .critical 0 0 1 50
    (some (Vmstat.mk 1 0 10 10 0 0 0))
    (some (Meminfo.mk 10 0 100 100 100 10 10 10))
    false false false 0 true true false (some ⟨5, 3, 1⟩)
    true false (fun _ => 5)

/-- Tunables for the C1 counterexample: `pressure_after_kill_min_score`
is 300. -/
def c1cex_t : Tun := Tun.mk 100 0 1 30 90 50 100 0 0 300 701 1 4

/-- The kill-counter tables as initialised at startup (lines 3865-3870):
all indexes unassigned, all counters zero. -/
def killcnt_init : KillcntState :=
  { killcnt_idx := fun _ => 255
    killcnt := fun _ => 0
    killcnt_free_idx := 0
    killcnt_total := 0 }

def c6w_p : ProcRec := ProcRec.mk 2 11 0 900 0 true

def c6w_env : KillEnv :=
  { pidfd_supported := true
    page_k := 4
    now := 77
    statm_rss := fun _ => some 100
    status := fun p => if p = 2 then some (KStatus.mk 2 (some 400) (some 0)) else none
    cmdline_ok := fun _ => true
    reaper_ok := fun _ => true }

def c6w_k : KState :=
  { reg := proc_insert Registry.empty c6w_p
    last_kill_pid_or_fd := -1
    last_kill_tm := 0
    open_fds := [11]
    kc := killcnt_init }

/-- The C5 registry invariant: pids are unique in the hash, every record
is in exactly the bucket of its current score (exactly once), and every
bucket entry has a backing record. -/
structure RegistryOk (r : Registry) : Prop where
  nodup : (r.hash.map (fun p => p.pid)).Nodup
  mem_iff : ∀ p ∈ r.hash, ∀ i : Int, (p.pid ∈ r.buckets i ↔ i = ADJTOSLOT p.oomadj)
  cnt : ∀ p ∈ r.hash, (r.buckets (ADJTOSLOT p.oomadj)).count p.pid = 1
  closed : ∀ (i pid : Int), pid ∈ r.buckets i → ∃ p, p ∈ r.hash ∧ p.pid = pid

def c5w_env : PrioEnv :=
  PrioEnv.mk 2 (fun _ => none) (fun _ => true) false false false (fun _ => -1)

def c5w_params : ProcPrioParams := ProcPrioParams.mk 7 0 100 1

def c5w_reg : Registry := register_oom_adj_proc c5w_env c5w_params 1 Registry.empty

def c5w_rec : ProcRec := ProcRec.mk 7 (-1) 0 100 1 true

/-- A registry holding two processes: a stale pid 1 (its `/proc` status
read fails) at score 1000 and a healthy pid 2 at score 900. -/
def c4cex_rec1 : ProcRec :=
  { pid := 1, pidfd := 10, uid := 0, oomadj := 1000, reg_pid := 0, valid := true }

def c4cex_rec2 : ProcRec :=
  { pid := 2, pidfd := 11, uid := 0, oomadj := 900, reg_pid := 0, valid := true }

def c4cex_reg : Registry :=
  { hash := [c4cex_rec1, c4cex_rec2]
    buckets := fun i => if i = 2000 then [1] else if i = 1900 then [2] else [] }

/-- Kill environment where pid 1's status read fails (stale pid) and
pid 2 kills successfully with 400 kB of RSS. -/
def c4cex_env : KillEnv :=
  { pidfd_supported := true
    page_k := 4
    now := 0
    statm_rss := fun _ => some 100
    status := fun p => if p = 2 then some (KStatus.mk 2 (some 400) (some 0)) else none
    cmdline_ok := fun _ => true
    reaper_ok := fun _ => true }

/-- Variant environment where pid 1 is killable but frees 0 pages
(RSS below one page) and pid 2 frees 100 pages. -/
def c4cex_envZ : KillEnv :=
  { c4cex_env with
      status := fun p =>
        if p = 1 then some (KStatus.mk 1 (some 2) (some 0))
        else if p = 2 then some (KStatus.mk 2 (some 400) (some 0)) else none }

def c4cex_k : KState :=
  { reg := c4cex_reg
    last_kill_pid_or_fd := -1
    last_kill_tm := 0
    open_fds := [10, 11]
    kc := killcnt_init }

/-- C3: when a decision-engine invocation finds `since_reset > 1000 ms`,
it computes `prev_thrash_growth = (refault - init_refault) * 100 /
(base_file_lru + 1)`, right-shifts it by `windows_passed = since_reset /
1000 ms` iff `windows_passed > 1` or `prev_thrash_growth <
thrashing_limit` (a single-window growth at or above the limit is
preserved undecayed), then resets the baselines, the window start, and
`thrashing_limit` to its configured value. -/
theorem thrashing_window_reset_spec (tl_pct : Int) (s : EngineState)
    (refault file_lru now : Int)
    (h : THRASHING_RESET_INTERVAL_MS < now - s.thrashing_reset_tm) :
    ((update_thrashing tl_pct s refault file_lru now).1).prev_thrash_growth =
      (if 1 < Int.tdiv (now - s.thrashing_reset_tm) THRASHING_RESET_INTERVAL_MS ∨
          Int.tdiv ((refault - s.init_ws_refault) * 100) (s.base_file_lru + 1) <
            s.thrashing_limit then
        Int.tdiv ((refault - s.init_ws_refault) * 100) (s.base_file_lru + 1) >>>
          (Int.tdiv (now - s.thrashing_reset_tm) THRASHING_RESET_INTERVAL_MS).toNat
      else Int.tdiv ((refault - s.init_ws_refault) * 100) (s.base_file_lru + 1)) ∧
    ((update_thrashing tl_pct s refault file_lru now).1).init_ws_refault = refault ∧
    ((update_thrashing tl_pct s refault file_lru now).1).base_file_lru = file_lru ∧
    ((update_thrashing tl_pct s refault file_lru now).1).thrashing_reset_tm = now ∧
    ((update_thrashing tl_pct s refault file_lru now).1).thrashing_limit = tl_pct := by
  unfold update_thrashing
  dsimp only
  rw [if_pos h]
  split <;> split <;> simp_all

/-- Witness for C3: the spec's own decay scenario, two windows passed. -/
theorem thrashing_window_reset_spec_witness :
    THRASHING_RESET_INTERVAL_MS <
      (3200 : Int) - (EngineState.mk .low (-1) 0 0 0 0 100 0 0 0 false 100 0 0 0 false 0
        false ⟨0, 0, 0⟩).thrashing_reset_tm ∧
    ((update_thrashing 100 (EngineState.mk .low (-1) 0 0 0 0 100 0 0 0 false 100 0 0 0 false 0
        false ⟨0, 0, 0⟩) 200 50 3200).1).prev_thrash_growth = 24 := by
  refine ⟨by decide, ?_⟩
  have h := thrashing_window_reset_spec 100
    (EngineState.mk .low (-1) 0 0 0 0 100 0 0 0 false 100 0 0 0 false 0 false ⟨0, 0, 0⟩)
    200 50 3200 (by decide)
  rw [h.1]
  decide

lemma update_thrashing_prev_level (a : Int) (s : EngineState) (b c d : Int) :
    ((update_thrashing a s b c d).1).prev_level = s.prev_level := by
  unfold update_thrashing
  dsimp only
  split <;> split <;> first | rfl | (split <;> rfl)

lemma stop_wait_engine_prev_level (s : EngineState) :
    (stop_wait_engine s).prev_level = s.prev_level := by
  unfold stop_wait_engine; split <;> rfl

lemma reclaim_update_prev_level (vs : Vmstat) (a b : Bool) (s : EngineState) :
    ((reclaim_update vs a b s).2).prev_level = s.prev_level := by
  unfold reclaim_update
  split <;> first | rfl | (split <;> rfl)

lemma wmark_refresh_prev_level {env : MpEnv} {s s' : EngineState}
    (h : wmark_refresh env s = some s') : s'.prev_level = s.prev_level := by
  unfold wmark_refresh at h
  split at h
  · split at h
    · exact absurd h (by simp)
    · cases h; rfl
  · cases h; rfl

lemma classify_act_prev_level (t : Tun) (env : MpEnv) (mi : Meminfo) (c sl : Bool)
    (th : Int) (rc : ReclaimState) (su fl : Int) :
    ∀ fuel acc s, ((classify_act t env mi c sl th rc su fl fuel acc s).2).prev_level =
      s.prev_level := by
  intro fuel
  induction fuel with
  | zero => intro acc s; rfl
  | succ n ih =>
    intro acc s
    unfold classify_act
    cases hw : wmark_refresh env s with
    | none => rfl
    | some s1 =>
      have hps : s1.prev_level = s.prev_level := wmark_refresh_prev_level hw
      dsimp only
      cases hc : mp_event_classify t (mkClassifyIn env c sl th rc su fl
          (get_lowest_watermark mi s1.watermarks) s1) acc with
      | none => exact hps
      | some o =>
        dsimp only
        split
        · exact hps
        · split
          · rw [ih]; exact hps
          · dsimp only
            split <;> split <;> exact hps

lemma postkill_reset_prev_level (vs : Vmstat) (a b : Int) (s : EngineState) :
    ((postkill_reset vs a b s).2).prev_level = s.prev_level := by
  unfold postkill_reset; split <;> rfl

lemma reclaim_detect_prev_level (env : MpEnv) (vs : Vmstat) (s : EngineState) :
    ((reclaim_detect env vs s).2).prev_level = s.prev_level := by
  unfold reclaim_detect
  exact reclaim_update_prev_level vs _ _ s

lemma step_core_prev_level (t : Tun) (env : MpEnv) (s : EngineState) :
    ((step_core t env s).2).prev_level = s.prev_level := by
  unfold step_core
  split
  · rfl
  · dsimp only
    cases hv : env.vmstat <;> dsimp only
    · exact stop_wait_engine_prev_level s
    · cases hm : env.meminfo <;> dsimp only
      · exact stop_wait_engine_prev_level s
      · split <;> split
        all_goals
          simp [classify_act_prev_level, update_thrashing_prev_level,
            reclaim_detect_prev_level, postkill_reset_prev_level,
            stop_wait_engine_prev_level]

/-- C8: a PSI pressure event whose level is lower than the previously
stored level and which arrives before the polling window's first polling
wakeup is ignored with the engine state untouched; a polling wakeup
(a PSI invocation with `events = 0`) resets the stored level to LOW; an
event wakeup that passes the filter stores its own (not lower) level. -/
theorem psi_level_lock_spec (t : Tun) (env : MpEnv) (s : EngineState)
    (hpsi : env.source_vendor = false) :
    (0 < env.events → env.level.toNat < s.prev_level.toNat →
      mp_event_step t env s = (.ignored, s)) ∧
    (env.events = 0 → ((mp_event_step t env s).2).prev_level = .low) ∧
    (0 < env.events → ¬env.level.toNat < s.prev_level.toNat →
      ((mp_event_step t env s).2).prev_level = env.level) := by
  unfold mp_event_step
  rw [if_pos (by simp [hpsi])]
  refine ⟨fun he hl => ?_, fun he => ?_, fun he hl => ?_⟩
  · rw [if_pos he, if_pos hl]
  · rw [if_neg (by omega), step_core_prev_level]
  · rw [if_pos he, if_neg hl, step_core_prev_level]

/-- Witness for C8: the lower-level event is dropped with no state change. -/
theorem psi_level_lock_spec_witness :
    mp_event_step c8w_t c8w_env c8w_s = (.ignored, c8w_s) :=
  (psi_level_lock_spec c8w_t c8w_env c8w_s rfl).1 (by decide) (by decide)

lemma step_core_gate (t : Tun) (env : MpEnv) (s : EngineState)
    (h1 : is_kill_pending env s)
    (h2 : t.kill_timeout_ms = 0 ∨ env.now - s.last_kill_tm < t.kill_timeout_ms) :
    step_core t env s = (.noKill, { s with skipped_wakeups := s.skipped_wakeups + 1 }) := by
  unfold step_core
  rw [if_pos ⟨h1, h2⟩]

/-- Counterexample to C2 as stated: with a kill pending and the timeout
not elapsed, a lower-level PSI event is discarded by the Step-1 level
filter, so this invocation does NOT increment the skipped-wakeups
counter (the claim demands that every invocation increments it). -/
theorem kill_gate_skip_counter_cex :
    is_kill_pending c2cex_env c2cex_s ∧
    (c2cex_t.kill_timeout_ms = 0 ∨
      c2cex_env.now - c2cex_s.last_kill_tm < c2cex_t.kill_timeout_ms) ∧
    (mp_event_step c2cex_t c2cex_env c2cex_s).1 = .ignored ∧
    ((mp_event_step c2cex_t c2cex_env c2cex_s).2).skipped_wakeups =
      c2cex_s.skipped_wakeups := by
  decide

/-- C2 (amended): whenever a kill is in flight and either
`kill_timeout_ms` is zero or the elapsed time since the last kill is
below the timeout, no decision-engine invocation initiates a kill, and
every such invocation that is not discarded by the Step-1 same-window
level filter increments the skipped-wakeups counter and returns "no
kill" with the kill-wait state left in place. -/
theorem kill_gate_no_overlap (t : Tun) (env : MpEnv) (s : EngineState)
    (hC : is_kill_pending env s ∧
      (t.kill_timeout_ms = 0 ∨ env.now - s.last_kill_tm < t.kill_timeout_ms)) :
    (∀ r m pg, (mp_event_step t env s).1 ≠ .killAttempt r m pg) ∧
    (¬(env.source_vendor = false ∧ 0 < env.events ∧
        env.level.toNat < s.prev_level.toNat) →
      (mp_event_step t env s).1 = .noKill ∧
      ((mp_event_step t env s).2).skipped_wakeups = s.skipped_wakeups + 1 ∧
      ((mp_event_step t env s).2).last_kill_pid_or_fd = s.last_kill_pid_or_fd ∧
      ((mp_event_step t env s).2).last_kill_tm = s.last_kill_tm) := by
  by_cases hsv : env.source_vendor = true
  · have hstep : mp_event_step t env s = step_core t env s := by
      unfold mp_event_step
      rw [if_neg (by simp [hsv])]
    rw [hstep, step_core_gate t env s hC.1 hC.2]
    exact ⟨fun r m pg => by simp, fun _ => ⟨rfl, rfl, rfl, rfl⟩⟩
  · have hsv' : env.source_vendor = false := by simpa using hsv
    have hgate : ∀ l : VLevel, step_core t env { s with prev_level := l } =
        (.noKill, { s with prev_level := l,
                           skipped_wakeups := s.skipped_wakeups + 1 }) := by
      intro l
      exact step_core_gate t env { s with prev_level := l } hC.1 hC.2
    unfold mp_event_step
    rw [if_pos (by simp [hsv'])]
    by_cases he : 0 < env.events
    · by_cases hl : env.level.toNat < s.prev_level.toNat
      · rw [if_pos he, if_pos hl]
        exact ⟨fun r m pg => by simp, fun h => absurd ⟨hsv', he, hl⟩ h⟩
      · rw [if_pos he, if_neg hl, hgate env.level]
        exact ⟨fun r m pg => by simp, fun _ => ⟨rfl, rfl, rfl, rfl⟩⟩
    · rw [if_neg he, hgate .low]
      exact ⟨fun r m pg => by simp, fun _ => ⟨rfl, rfl, rfl, rfl⟩⟩

/-- Witness for C2: the gated invocation skips and counts the wakeup. -/
theorem kill_gate_no_overlap_witness :
    (mp_event_step c2w_t c2w_env c2w_s).1 = .noKill ∧
    ((mp_event_step c2w_t c2w_env c2w_s).2).skipped_wakeups =
      c2w_s.skipped_wakeups + 1 ∧
    ((mp_event_step c2w_t c2w_env c2w_s).2).last_kill_pid_or_fd =
      c2w_s.last_kill_pid_or_fd ∧
    ((mp_event_step c2w_t c2w_env c2w_s).2).last_kill_tm = c2w_s.last_kill_tm :=
  (kill_gate_no_overlap c2w_t c2w_env c2w_s ⟨by decide, Or.inr (by decide)⟩).2
    (by decide)

lemma classify_chain_table (t : Tun) (inp : ClassifyIn) (o : ClassifyOut)
    (h : classify_chain t inp classify_acc_init = some o) : tableOk t inp o := by
  unfold classify_chain at h
  by_cases h1 : inp.source_vendor = true
  · rw [if_pos h1] at h
    by_cases h2 : inp.vendor_reason < 0 ∨ t.vendor_kill_reason_end < inp.vendor_reason ∨ inp.vendor_min_score < 0
    · rw [if_pos h2] at h; cases h
    · rw [if_neg h2] at h; injection h with hx; subst hx; simp [tableOk, PERCEPTIBLE_APP_ADJ, classify_acc_init]
  · rw [if_neg h1] at h
    by_cases g0 : inp.cycle_after_kill = true ∧ wmLt inp.wmark ZWmark.wmarkLow
    · rw [if_pos g0] at h; injection h with hx; subst hx; simp [tableOk, PERCEPTIBLE_APP_ADJ, classify_acc_init]
    · rw [if_neg g0] at h
      by_cases g1 : inp.level = VLevel.critical ∧ inp.events ≠ 0
      · rw [if_pos g1] at h; injection h with hx; subst hx; simp [tableOk, PERCEPTIBLE_APP_ADJ, classify_acc_init]
      · rw [if_neg g1] at h
        by_cases g2 : inp.swap_is_low = true ∧ t.thrashing_limit_pct < inp.thrashing
        · rw [if_pos g2] at h; injection h with hx; subst hx; simp [tableOk, PERCEPTIBLE_APP_ADJ, classify_acc_init]
        · rw [if_neg g2] at h
          by_cases g3 : inp.swap_is_low = true ∧ wmLt inp.wmark ZWmark.wmarkHigh
          · rw [if_pos g3] at h; injection h with hx; subst hx; simp [tableOk, PERCEPTIBLE_APP_ADJ, classify_acc_init]
          · rw [if_neg g3] at h
            by_cases g4 : wmLt inp.wmark ZWmark.wmarkHigh ∧ t.swap_util_max < 100 ∧ t.swap_util_max < inp.swap_util
            · rw [if_pos g4] at h; injection h with hx; subst hx; simp [tableOk, PERCEPTIBLE_APP_ADJ, classify_acc_init]
            · rw [if_neg g4] at h
              by_cases g5 : wmLt inp.wmark ZWmark.wmarkHigh ∧ inp.thrashing_limit < inp.thrashing
              · rw [if_pos g5] at h; injection h with hx; subst hx; simp [tableOk, PERCEPTIBLE_APP_ADJ, classify_acc_init]
              · rw [if_neg g5] at h
                by_cases g6 : inp.reclaim = ReclaimState.directReclaim ∧ inp.thrashing_limit < inp.thrashing
                · rw [if_pos g6] at h; injection h with hx; subst hx; simp [tableOk, PERCEPTIBLE_APP_ADJ, classify_acc_init]
                · rw [if_neg g6] at h
                  by_cases g7 : inp.reclaim = ReclaimState.directReclaim ∧ 0 < t.direct_reclaim_threshold_ms ∧ t.direct_reclaim_threshold_ms < inp.direct_reclaim_duration_ms
                  · rw [if_pos g7] at h; injection h with hx; subst hx; simp [tableOk, PERCEPTIBLE_APP_ADJ, classify_acc_init]
                  · rw [if_neg g7] at h
                    by_cases gcf : inp.check_filecache = true
                    · rw [if_pos gcf] at h
                      by_cases gfl : inp.file_lru_kb < t.filecache_min_kb
                      · rw [if_pos gfl] at h; injection h with hx; subst hx; simp [tableOk, PERCEPTIBLE_APP_ADJ, classify_acc_init]
                      · rw [if_neg gfl] at h; injection h with hx; subst hx; simp [tableOk, PERCEPTIBLE_APP_ADJ, classify_acc_init]
                    · rw [if_neg gcf] at h; injection h with hx; subst hx; simp [tableOk, PERCEPTIBLE_APP_ADJ, classify_acc_init]

lemma mp_event_classify_table (t : Tun) (inp : ClassifyIn) (o : ClassifyOut)
    (h : mp_event_classify t inp classify_acc_init = some o) : tableOk t inp o := by
  unfold mp_event_classify at h
  cases hch : classify_chain t inp classify_acc_init with
  | none => rw [hch] at h; exact Option.noConfusion h
  | some o1 =>
    rw [hch] at h
    dsimp only at h
    have ht := classify_chain_table t inp o1 hch
    by_cases hf : o1.reason = KillReason.noneK ∧ wmLt inp.wmark ZWmark.wmarkHigh
    · rw [if_pos hf] at h
      injection h with hx
      subst hx
      simp [tableOk]
    · rw [if_neg hf] at h
      injection h with hx
      subst hx
      exact ht

lemma wmark_refresh_first_kill {env : MpEnv} {s s' : EngineState}
    (h : wmark_refresh env s = some s') : s'.first_kill = s.first_kill := by
  unfold wmark_refresh at h
  split at h
  · split at h
    · exact absurd h (by simp)
    · cases h; rfl
  · cases h; rfl

lemma classify_act_single (t : Tun) (env : MpEnv) (mi : Meminfo) (cyc swl : Bool)
    (thr : Int) (rc : ReclaimState) (su fl : Int) (fuel : Nat) (acc : ClassifyAcc)
    (s : EngineState) (r : KillReason) (m pg : Int)
    (hfk : s.first_kill = false)
    (h : (classify_act t env mi cyc swl thr rc su fl (fuel + 1) acc s).1 =
      .killAttempt r m pg) :
    ∃ s1, wmark_refresh env s = some s1 ∧
      ∃ o, mp_event_classify t
          (mkClassifyIn env cyc swl thr rc su fl
            (get_lowest_watermark mi s1.watermarks) s1) acc = some o ∧
        o.reason ≠ .noneK ∧ r = o.reason ∧
        m = (if env.psi_mem_ok && env.psi_full_avg10_gt_stall_limit then 0
             else o.min_score_adj) := by
  unfold classify_act at h
  cases hw : wmark_refresh env s with
  | none => rw [hw] at h; exact absurd h (by simp)
  | some s1 =>
    rw [hw] at h
    dsimp only at h
    cases hc : mp_event_classify t (mkClassifyIn env cyc swl thr rc su fl
        (get_lowest_watermark mi s1.watermarks) s1) acc with
    | none => rw [hc] at h; exact absurd h (by simp)
    | some o =>
      rw [hc] at h
      dsimp only at h
      split at h
      · exact absurd h (by simp)
      · rename_i hno
        split at h
        · rename_i hfk1
          have hks : s1.first_kill = true := by simpa using hfk1
          rw [wmark_refresh_first_kill hw, hfk] at hks
          exact Bool.noConfusion hks
        · dsimp only at h
          simp only [MpResult.killAttempt.injEq] at h
          exact ⟨s1, rfl, o, hc, hno, h.1.symm, h.2.1.symm⟩

lemma classify_act_spec (t : Tun) (env : MpEnv) (mi : Meminfo) (cyc swl : Bool)
    (thr : Int) (rc : ReclaimState) (su fl : Int) (fuel : Nat)
    (s : EngineState) (r : KillReason) (m pg : Int)
    (h : (classify_act t env mi cyc swl thr rc su fl (fuel + 1 + 1)
      classify_acc_init s).1 = .killAttempt r m pg) :
    classify_spec t env mi cyc swl thr rc su fl s r m := by
  unfold classify_spec
  unfold classify_act at h
  cases hw : wmark_refresh env s with
  | none => rw [hw] at h; exact absurd h (by simp)
  | some s1 =>
    rw [hw] at h
    dsimp only at h
    cases hc : mp_event_classify t (mkClassifyIn env cyc swl thr rc su fl
        (get_lowest_watermark mi s1.watermarks) s1) classify_acc_init with
    | none => rw [hc] at h; exact absurd h (by simp)
    | some o1 =>
      rw [hc] at h
      dsimp only at h
      split at h
      · exact absurd h (by simp)
      · rename_i hno
        split at h
        · rename_i hfk1
          have hks : s1.first_kill = true := by simpa using hfk1
          obtain ⟨s2, hw2, o2, hc2, hno2, hr2, hm2⟩ :=
            classify_act_single t env mi cyc swl thr rc su fl fuel
              ⟨o1.reason, o1.min_score_adj, o1.cut_thrashing_limit⟩ _ r m pg rfl h
          exact ⟨s1, rfl, o1, hc, hno, mp_event_classify_table t _ o1 hc,
            Or.inr ⟨hks, s2, hw2, o2, hc2, hr2, hm2⟩⟩
        · rename_i hfk1
          have hks : s1.first_kill = false := by simpa using hfk1
          dsimp only at h
          simp only [MpResult.killAttempt.injEq] at h
          exact ⟨s1, rfl, o1, hc, hno, mp_event_classify_table t _ o1 hc,
            Or.inl ⟨hks, h.1.symm, h.2.1.symm⟩⟩

lemma step_core_kill_spec (t : Tun) (env : MpEnv) (s : EngineState)
    (r : KillReason) (m pg : Int)
    (h : (step_core t env s).1 = .killAttempt r m pg) :
    kill_classified t env s r m := by
  unfold step_core at h
  split at h
  · exact absurd h (by simp)
  · dsimp only at h
    cases hv : env.vmstat with
    | none => rw [hv] at h; exact absurd h (by simp)
    | some vs =>
      rw [hv] at h
      dsimp only at h
      cases hmi : env.meminfo with
      | none => rw [hmi] at h; exact absurd h (by simp)
      | some mi =>
        rw [hmi] at h
        dsimp only at h
        by_cases hwrf : vs.workingset_refault ≠ 0
        · rw [if_pos hwrf] at h
          split at h
          · exact absurd h (by simp)
          · refine ⟨vs, mi, hv, hmi, ?_⟩
            dsimp only
            rw [if_pos hwrf]
            exact classify_act_spec t env mi _ _ _ _ _ _ 0 _ r m pg h
        · rw [if_neg hwrf] at h
          split at h
          · exact absurd h (by simp)
          · refine ⟨vs, mi, hv, hmi, ?_⟩
            dsimp only
            rw [if_neg hwrf]
            exact classify_act_spec t env mi _ _ _ _ _ _ 0 _ r m pg h

/-- Counterexample to C1 as stated. The locals `kill_reason`,
`min_score_adj` and `cut_thrashing_limit` persist across the one-shot
`first_kill` watermark-refresh retry (`goto update_watermarks`,
lmkd.cpp:3060-3067), so when the refreshed watermarks change the
classification, the first pass's min score leaks into the second pass's
kill. Here the first pass (stale watermarks ⟨100, 50, 20⟩, 10 free pages,
a kill last cycle) fires PRESSURE_AFTER_KILL with
`min_score_adj = pressure_after_kill_min_score = 300`; the forced
zoneinfo re-read lifts the watermark to NONE, the second pass fires
NOT_RESPONDING (critical event) — a branch that does not assign
`min_score_adj` — and the kill goes out with reason NOT_RESPONDING at
min score 300, while the Step-9 table specifies 0 for NOT_RESPONDING and
`critical_stall` is false. -/
theorem mp_event_min_score_table_cex :
    (mp_event_step c1cex_t c1cex_env c1cex_s).1 =
      MpResult.killAttempt .notResponding 300 5 ∧
    (c1cex_env.psi_mem_ok && c1cex_env.psi_full_avg10_gt_stall_limit) = false ∧
    (300 : Int) ≠ 0 := by
  decide

/-- C1, amended: a kill emitted by the decision engine is classified on
the invocation's own pipeline values (watermark from the refreshed state,
post-kill cycle flag, free-swap check, thrashing, reclaim state, swap
utilization, file LRU — each pinned to the embedded source computation),
the first classification pass starts from the initial locals and its min
score equals the Step-9 table value for its reason under that input's
side conditions; the kill's reason and min score are the first pass's
when the invocation is past the daemon's first kill, and otherwise come
from the one-shot watermark-refresh retry, whose second pass starts from
the first pass's persisting `kill_reason`/`min_score_adj`/
`cut_thrashing_limit` locals (so a divergent second pass can keep the
first pass's min score); in all cases the min score is lowered to 0
exactly when `critical_stall` holds. -/
theorem mp_event_min_score_table_amended (t : Tun) (env : MpEnv) (s : EngineState)
    (r : KillReason) (m pg : Int)
    (h : (mp_event_step t env s).1 = .killAttempt r m pg) :
    ∃ s0, (s0 = s ∨ s0 = { s with prev_level := env.level } ∨
        s0 = { s with prev_level := VLevel.low }) ∧
      kill_classified t env s0 r m := by
  unfold mp_event_step at h
  split at h
  · split at h
    · split at h
      · exact absurd h (by simp)
      · exact ⟨_, Or.inr (Or.inl rfl), step_core_kill_spec t env _ r m pg h⟩
    · exact ⟨_, Or.inr (Or.inr rfl), step_core_kill_spec t env _ r m pg h⟩
  · exact ⟨_, Or.inl rfl, step_core_kill_spec t env _ r m pg h⟩

/-- Witness for the amended C1 theorem: the concrete NOT_RESPONDING kill
(no retry: `first_kill` is already false) is classified on its own
input. -/
theorem mp_event_min_score_table_amended_witness :
    (mp_event_step c1w_t c1w_env c1w_s).1 =
      MpResult.killAttempt .notResponding 0 5 ∧
    ∃ s0, (s0 = c1w_s ∨ s0 = { c1w_s with prev_level := c1w_env.level } ∨
        s0 = { c1w_s with prev_level := VLevel.low }) ∧
      kill_classified c1w_t c1w_env s0 .notResponding 0 :=
  ⟨by decide,
    mp_event_min_score_table_amended c1w_t c1w_env c1w_s .notResponding 0 5 (by decide)⟩

lemma Icc_eq_insert (a b : Int) (h : a ≤ b) :
    Finset.Icc a b = insert a (Finset.Icc (a + 1) b) := by
  ext x
  simp only [Finset.mem_Icc, Finset.mem_insert]
  omega

lemma killcnt_loop_sum (k : KillcntState) :
    ∀ fuel (minA maxA : Int), (maxA - minA + 1).toNat ≤ fuel →
      killcnt_sum_loop k minA maxA fuel = ∑ a in Finset.Icc minA maxA, killcnt_at k a := by
  intro fuel
  induction fuel with
  | zero =>
    intro minA maxA hf
    have hmax : maxA < minA := by omega
    rw [Finset.Icc_eq_empty (by omega)]
    simp [killcnt_sum_loop]
  | succ n ih =>
    intro minA maxA hf
    unfold killcnt_sum_loop
    by_cases hle : minA ≤ maxA
    · by_cases hslot : ADJTOSLOT minA < ADJTOSLOT_COUNT
      · rw [if_pos ⟨hle, hslot⟩, ih (minA + 1) maxA (by omega),
          Icc_eq_insert minA maxA hle,
          Finset.sum_insert (by simp [Finset.mem_Icc])]
        unfold killcnt_at
        rw [if_pos hslot]
      · rw [if_neg (by tauto)]
        rw [Finset.sum_eq_zero, ]
        intro a ha
        unfold killcnt_at
        rw [if_neg ?_]
        unfold ADJTOSLOT ADJTOSLOT_COUNT at hslot ⊢
        simp only [Finset.mem_Icc] at ha
        omega
    · rw [if_neg (by tauto), Finset.Icc_eq_empty hle, Finset.sum_empty]

/-- Counterexample to C7 as stated: a request with `min_adj = 1001 > 1000`
and `max_adj = 0` replies 0, not the total kill counter (1 here),
because `get_killcnt` tests `min > max` before the total special case. -/
theorem get_killcnt_total_cex :
    (inc_killcnt killcnt_init 0).killcnt_total = 1 ∧
    get_killcnt (inc_killcnt killcnt_init 0) 1001 0 = 0 := by
  constructor
  · rfl
  · rfl

/-- C7 (amended): a GETKILLCNT request with `min_adj > max_adj` replies 0
(even when `min_adj > 1000`); with `min_adj ≤ max_adj` and
`min_adj > 1000` it replies the total kill counter; otherwise, for
requests with `min_adj` in the valid score range, it replies the sum of
the per-score kill counters over `[min_adj, max_adj]`. -/
theorem get_killcnt_spec_amended (k : KillcntState) (minA maxA : Int) :
    (maxA < minA → get_killcnt k minA maxA = 0) ∧
    (minA ≤ maxA → OOM_SCORE_ADJ_MAX < minA →
      get_killcnt k minA maxA = k.killcnt_total) ∧
    (OOM_SCORE_ADJ_MIN ≤ minA → minA ≤ maxA → minA ≤ OOM_SCORE_ADJ_MAX →
      get_killcnt k minA maxA = ∑ a in Finset.Icc minA maxA, killcnt_at k a) := by
  refine ⟨fun h => ?_, fun h1 h2 => ?_, fun h1 h2 h3 => ?_⟩
  · unfold get_killcnt
    rw [if_pos h]
  · unfold get_killcnt
    rw [if_neg (by omega), if_pos h2]
  · unfold get_killcnt
    rw [if_neg (by omega), if_neg (by omega)]
    exact killcnt_loop_sum k _ minA maxA (by omega)

/-- Witness for C7: the sum branch over the full score range on a state
with two recorded kills. -/
theorem get_killcnt_spec_amended_witness :
    get_killcnt (inc_killcnt (inc_killcnt killcnt_init 900) 0) (-1000) 1000 =
      ∑ a in Finset.Icc (-1000 : Int) 1000,
        killcnt_at (inc_killcnt (inc_killcnt killcnt_init 900) 0) a :=
  (get_killcnt_spec_amended (inc_killcnt (inc_killcnt killcnt_init 900) 0)
    (-1000) 1000).2.2 (by decide) (by decide) (by decide)

lemma pid_lookup_remove_reg_self (r : Registry) (pid : Int) :
    pid_lookup (pid_remove_reg r pid) pid = none := by
  unfold pid_remove_reg
  cases hl : pid_lookup r pid with
  | none => exact hl
  | some p =>
    unfold pid_lookup proc_unslot
    dsimp only
    rw [List.find?_eq_none]
    intro q hq
    rw [List.mem_filter] at hq
    simpa using hq.2

lemma pid_lookup_remove_self (k : KState) (pid : Int) :
    pid_lookup (pid_remove k pid).reg pid = none := by
  unfold pid_remove
  cases hl : pid_lookup k.reg pid with
  | none => exact hl
  | some p => exact pid_lookup_remove_reg_self k.reg pid

/-- C6: after a successful kill of p, lookup(p) fails (the record leaves
both indexes) and p's process FD, being the kill-in-flight FD at removal
time, stays open until the kill wait completes or is released, at which
point `stop_wait_for_proc_kill` closes it; in general `pid_remove` closes
a record's FD iff it is not the current kill-in-flight FD. -/
theorem kill_removes_record_fd_policy (env : KillEnv) (k : KState) (procp : ProcRec)
    (st : KStatus) (rss swp : Int)
    (hlk : pid_lookup k.reg procp.pid = some procp)
    (hval : procp.valid = true)
    (hst : env.status procp.pid = some st)
    (htg : st.tgid = procp.pid)
    (hrss : st.rss_kb = some rss) (hswp : st.swap_kb = some swp)
    (hcmd : env.cmdline_ok procp.pid = true) (hrp : env.reaper_ok procp.pid = true)
    (hfd : 0 ≤ procp.pidfd) (hsup : env.pidfd_supported = true)
    (hnowait : k.last_kill_pid_or_fd < 0)
    (hrssn : 0 ≤ rss) (hpk : 0 < env.page_k) :
    0 ≤ (kill_one_process env k procp).1 ∧
    pid_lookup ((kill_one_process env k procp).2).reg procp.pid = none ∧
    ((kill_one_process env k procp).2).last_kill_pid_or_fd = procp.pidfd ∧
    ((kill_one_process env k procp).2).open_fds = k.open_fds ∧
    (stop_wait_for_proc_kill env (kill_one_process env k procp).2).open_fds =
      k.open_fds.filter (fun f => f ≠ procp.pidfd) ∧
    (∀ (k2 : KState) (q : ProcRec), pid_lookup k2.reg q.pid = some q →
      (pid_remove k2 q.pid).open_fds =
        if 0 ≤ q.pidfd ∧ q.pidfd ≠ k2.last_kill_pid_or_fd then
          k2.open_fds.filter (fun f => f ≠ q.pidfd)
        else k2.open_fds) := by
  have hnot : ¬procp.pidfd < 0 := by omega
  have hnow : ¬(0 ≤ k.last_kill_pid_or_fd) := by omega
  have hkill : kill_one_process env k procp =
      (Int.tdiv rss env.page_k,
        pid_remove
          { k with last_kill_pid_or_fd := procp.pidfd,
                   last_kill_tm := env.now,
                   kc := inc_killcnt k.kc procp.oomadj } procp.pid) := by
    unfold kill_one_process
    rw [hval]
    simp only [if_true]
    rw [hst]
    dsimp only
    rw [if_neg (by simp [htg]), hrss]
    dsimp only
    rw [hswp]
    dsimp only
    rw [if_neg (by simp [hcmd])]
    unfold start_wait_for_proc_kill
    rw [if_neg hnow, if_neg hnot]
    rw [if_neg (by simp [hrp])]
  have hrem : pid_remove
      { k with last_kill_pid_or_fd := procp.pidfd,
               last_kill_tm := env.now,
               kc := inc_killcnt k.kc procp.oomadj } procp.pid =
      { k with last_kill_pid_or_fd := procp.pidfd,
               last_kill_tm := env.now,
               kc := inc_killcnt k.kc procp.oomadj,
               reg := pid_remove_reg k.reg procp.pid } := by
    unfold pid_remove
    dsimp only
    rw [hlk]
    dsimp only
    rw [if_neg (by simp)]
  refine ⟨?_, ?_, ?_, ?_, ?_, ?_⟩
  · rw [hkill]
    exact Int.tdiv_nonneg hrssn (le_of_lt hpk)
  · rw [hkill]
    exact pid_lookup_remove_self _ procp.pid
  · rw [hkill, hrem]
  · rw [hkill, hrem]
  · rw [hkill, hrem]
    unfold stop_wait_for_proc_kill
    rw [if_neg (by dsimp only; omega), if_pos (by simp [hsup])]
  · intro k2 q hq
    unfold pid_remove
    rw [hq]

/-- Witness for C6: killing the concrete record removes it, keeps its FD
open while the wait is in flight, and the wait teardown closes it. -/
theorem kill_removes_record_fd_policy_witness :
    0 ≤ (kill_one_process c6w_env c6w_k c6w_p).1 ∧
    pid_lookup ((kill_one_process c6w_env c6w_k c6w_p).2).reg c6w_p.pid = none ∧
    ((kill_one_process c6w_env c6w_k c6w_p).2).last_kill_pid_or_fd = c6w_p.pidfd ∧
    ((kill_one_process c6w_env c6w_k c6w_p).2).open_fds = c6w_k.open_fds ∧
    (stop_wait_for_proc_kill c6w_env (kill_one_process c6w_env c6w_k c6w_p).2).open_fds =
      c6w_k.open_fds.filter (fun f => f ≠ c6w_p.pidfd) := by
  have h := kill_removes_record_fd_policy c6w_env c6w_k c6w_p
    (KStatus.mk 2 (some 400) (some 0)) 400 0
    (by decide) rfl rfl rfl rfl rfl rfl rfl (by decide) rfl (by decide) (by decide)
    (by decide)
  exact ⟨h.1, h.2.1, h.2.2.1, h.2.2.2.1, h.2.2.2.2.1⟩

lemma count_filter_of_pos (l : List Int) (a : Int) (p : Int → Bool) (h : p a = true) :
    (l.filter p).count a = l.count a := by
  induction l with
  | nil => rfl
  | cons x xs ih =>
    rw [List.filter_cons]
    by_cases hx : p x = true
    · rw [if_pos hx, List.count_cons, List.count_cons, ih]
    · rw [if_neg hx, ih, List.count_cons]
      have hxa : ¬(x = a) := fun he => hx (he ▸ h)
      simp [hxa]

lemma mem_filter_ne {l : List Int} {a pid : Int} :
    a ∈ l.filter (fun q => q ≠ pid) ↔ a ∈ l ∧ a ≠ pid := by
  simp [List.mem_filter]

lemma count_filter_ne_self (l : List Int) (pid : Int) :
    (l.filter (fun q => q ≠ pid)).count pid = 0 := by
  rw [List.count_eq_zero]
  simp [List.mem_filter]

lemma count_filter_ne_other (l : List Int) {a pid : Int} (h : a ≠ pid) :
    (l.filter (fun q => q ≠ pid)).count a = l.count a :=
  count_filter_of_pos l a _ (by simpa using h)

lemma find_pid_eq_some {l : List ProcRec} (hn : (l.map (fun p => p.pid)).Nodup)
    {p : ProcRec} (hp : p ∈ l) : l.find? (fun q => q.pid == p.pid) = some p := by
  induction l with
  | nil => cases hp
  | cons x xs ih =>
    rw [List.map_cons, List.nodup_cons] at hn
    cases hp with
    | head =>
      simp only [List.find?]
      rw [show (p.pid == p.pid) = true from by simp]
    | tail _ hmem =>
      have hxe : x.pid ≠ p.pid := by
        intro he
        exact hn.1 (he ▸ List.mem_map_of_mem (fun q => q.pid) hmem)
      simp only [List.find?]
      rw [show (x.pid == p.pid) = false from by simpa using hxe]
      exact ih hn.2 hmem

lemma pid_lookup_none_forall {r : Registry} {pid : Int}
    (h : pid_lookup r pid = none) : ∀ q ∈ r.hash, q.pid ≠ pid := by
  unfold pid_lookup at h
  rw [List.find?_eq_none] at h
  intro q hq
  simpa using h q hq

lemma pid_lookup_some_mem {r : Registry} {pid : Int} {p : ProcRec}
    (h : pid_lookup r pid = some p) : p ∈ r.hash ∧ p.pid = pid := by
  unfold pid_lookup at h
  exact ⟨List.mem_of_find?_eq_some h, by simpa using List.find?_some h⟩

lemma registryOk_empty : RegistryOk Registry.empty := by
  constructor
  · simp [Registry.empty]
  · intro p hp
    simp [Registry.empty] at hp
  · intro p hp
    simp [Registry.empty] at hp
  · intro i pid hm
    simp [Registry.empty] at hm

lemma registryOk_insert {r : Registry} (h : RegistryOk r) (p : ProcRec)
    (hfresh : ∀ q ∈ r.hash, q.pid ≠ p.pid) : RegistryOk (proc_insert r p) := by
  have hfreshB : ∀ i, p.pid ∉ r.buckets i := by
    intro i hmem
    obtain ⟨q, hq, hqe⟩ := h.closed i p.pid hmem
    exact hfresh q hq hqe
  have hhash : (proc_insert r p).hash = p :: r.hash := rfl
  have hbk : ∀ i, (proc_insert r p).buckets i =
      if i = ADJTOSLOT p.oomadj then p.pid :: r.buckets i else r.buckets i :=
    fun i => rfl
  constructor
  · rw [hhash, List.map_cons, List.nodup_cons]
    refine ⟨fun hm => ?_, h.nodup⟩
    obtain ⟨q, hq, hqe⟩ := List.mem_map.mp hm
    exact hfresh q hq hqe
  · intro q hq i
    rw [hhash] at hq
    rw [hbk i]
    cases hq with
    | head =>
      by_cases hi : i = ADJTOSLOT p.oomadj
      · subst hi
        simp
      · rw [if_neg hi]
        exact ⟨fun hm => absurd hm (hfreshB i), fun hm => absurd hm hi⟩
    | tail _ hmem =>
      have hne : q.pid ≠ p.pid := hfresh q hmem
      by_cases hi : i = ADJTOSLOT p.oomadj
      · subst hi
        rw [if_pos rfl, List.mem_cons]
        constructor
        · intro hm
          cases hm with
          | inl he => exact absurd he hne
          | inr hm => exact (h.mem_iff q hmem _).mp hm
        · intro he
          exact Or.inr ((h.mem_iff q hmem _).mpr he)
      · rw [if_neg hi]
        exact h.mem_iff q hmem i
  · intro q hq
    rw [hhash] at hq
    cases hq with
    | head =>
      rw [hbk, if_pos rfl, List.count_cons_self,
        List.count_eq_zero.mpr (hfreshB _)]
    | tail _ hmem =>
      rw [hbk]
      by_cases hi : ADJTOSLOT q.oomadj = ADJTOSLOT p.oomadj
      · rw [if_pos hi, List.count_cons, if_neg (by simpa using (hfresh q hmem).symm)]
        exact h.cnt q hmem
      · rw [if_neg hi]
        exact h.cnt q hmem
  · intro i pid hm
    rw [hbk] at hm
    by_cases hi : i = ADJTOSLOT p.oomadj
    · rw [if_pos hi, List.mem_cons] at hm
      cases hm with
      | inl he => exact ⟨p, by rw [hhash]; exact List.mem_cons_self p r.hash, he.symm⟩
      | inr hm =>
        obtain ⟨q, hq, hqe⟩ := h.closed i pid hm
        exact ⟨q, by rw [hhash]; exact List.mem_cons_of_mem p hq, hqe⟩
    · rw [if_neg hi] at hm
      obtain ⟨q, hq, hqe⟩ := h.closed i pid hm
      exact ⟨q, by rw [hhash]; exact List.mem_cons_of_mem p hq, hqe⟩

lemma registryOk_remove_shape {r : Registry} (h : RegistryOk r) (pid : Int) :
    RegistryOk { hash := r.hash.filter (fun q => q.pid ≠ pid),
                 buckets := fun i => (r.buckets i).filter (fun q => q ≠ pid) } := by
  constructor
  · exact ((List.filter_sublist r.hash).map (fun p => p.pid)).nodup h.nodup
  · intro q hq i
    rw [List.mem_filter] at hq
    have hne : q.pid ≠ pid := by simpa using hq.2
    dsimp only
    rw [mem_filter_ne]
    constructor
    · intro hm
      exact (h.mem_iff q hq.1 i).mp hm.1
    · intro he
      exact ⟨(h.mem_iff q hq.1 i).mpr he, hne⟩
  · intro q hq
    rw [List.mem_filter] at hq
    have hne : q.pid ≠ pid := by simpa using hq.2
    dsimp only
    rw [count_filter_ne_other _ hne]
    exact h.cnt q hq.1
  · intro i pid2 hm
    dsimp only at hm
    rw [mem_filter_ne] at hm
    obtain ⟨q, hq, hqe⟩ := h.closed i pid2 hm.1
    refine ⟨q, ?_, hqe⟩
    rw [List.mem_filter]
    exact ⟨hq, by simpa [hqe] using hm.2⟩

lemma registryOk_map {r : Registry} (h : RegistryOk r) (g : ProcRec → ProcRec)
    (hpid : ∀ q, (g q).pid = q.pid) (hadj : ∀ q, (g q).oomadj = q.oomadj) :
    RegistryOk { hash := r.hash.map g, buckets := r.buckets } := by
  have hpids : (r.hash.map g).map (fun p => p.pid) = r.hash.map (fun p => p.pid) := by
    induction r.hash with
    | nil => rfl
    | cons x xs ih => simp only [List.map_cons, hpid, ih]
  constructor
  · rw [hpids]
    exact h.nodup
  · intro p hp i
    obtain ⟨q, hq, hqe⟩ := List.mem_map.mp hp
    subst hqe
    rw [hpid, hadj]
    exact h.mem_iff q hq i
  · intro p hp
    obtain ⟨q, hq, hqe⟩ := List.mem_map.mp hp
    subst hqe
    rw [hpid, hadj]
    exact h.cnt q hq
  · intro i pid2 hm
    obtain ⟨q, hq, hqe⟩ := h.closed i pid2 hm
    exact ⟨g q, List.mem_map_of_mem g hq, by rw [hpid]; exact hqe⟩

lemma registryOk_update {r : Registry} (h : RegistryOk r) (pid newadj cred : Int)
    (hmem : ∃ procp, procp ∈ r.hash ∧ procp.pid = pid) :
    RegistryOk
      { hash := r.hash.map (fun q => if q.pid == pid then
          { q with reg_pid := cred, oomadj := newadj } else q),
        buckets := fun i =>
          if i = ADJTOSLOT newadj then pid :: (r.buckets i).filter (fun q => q ≠ pid)
          else (r.buckets i).filter (fun q => q ≠ pid) } := by
  set g : ProcRec → ProcRec := fun q => if q.pid == pid then
    { q with reg_pid := cred, oomadj := newadj } else q with hg
  have hgpid : ∀ q, (g q).pid = q.pid := by
    intro q
    rw [hg]
    dsimp only
    split <;> rfl
  have hpids : (r.hash.map g).map (fun p => p.pid) = r.hash.map (fun p => p.pid) := by
    induction r.hash with
    | nil => rfl
    | cons x xs ih => simp only [List.map_cons, hgpid, ih]
  constructor
  · rw [hpids]
    exact h.nodup
  · intro p hp i
    obtain ⟨q, hq, hqe⟩ := List.mem_map.mp hp
    subst hqe
    rw [hgpid q]
    dsimp only
    by_cases hqpid : q.pid = pid
    · have : g q = { q with reg_pid := cred, oomadj := newadj } := by
        rw [hg]; dsimp only; rw [if_pos (by simpa using hqpid)]
      rw [this]
      dsimp only
      subst hqpid
      by_cases hi : i = ADJTOSLOT newadj
      · subst hi
        simp
      · rw [if_neg hi, mem_filter_ne]
        exact ⟨fun hm => absurd rfl hm.2, fun he => absurd he hi⟩
    · have : g q = q := by
        rw [hg]; dsimp only; rw [if_neg (by simpa using hqpid)]
      rw [this]
      by_cases hi : i = ADJTOSLOT newadj
      · rw [if_pos hi, List.mem_cons, mem_filter_ne]
        constructor
        · intro hm
          cases hm with
          | inl he => exact absurd he hqpid
          | inr hm => exact (h.mem_iff q hq i).mp hm.1
        · intro he
          exact Or.inr ⟨(h.mem_iff q hq i).mpr he, hqpid⟩
      · rw [if_neg hi, mem_filter_ne]
        exact ⟨fun hm => (h.mem_iff q hq i).mp hm.1,
          fun he => ⟨(h.mem_iff q hq i).mpr he, hqpid⟩⟩
  · intro p hp
    obtain ⟨q, hq, hqe⟩ := List.mem_map.mp hp
    subst hqe
    rw [hgpid q]
    dsimp only
    by_cases hqpid : q.pid = pid
    · have hge : g q = { q with reg_pid := cred, oomadj := newadj } := by
        rw [hg]; dsimp only; rw [if_pos (by simpa using hqpid)]
      rw [hge]
      dsimp only
      rw [if_pos rfl, hqpid, List.count_cons_self, count_filter_ne_self]
    · have hge : g q = q := by
        rw [hg]; dsimp only; rw [if_neg (by simpa using hqpid)]
      rw [hge]
      by_cases hi : ADJTOSLOT q.oomadj = ADJTOSLOT newadj
      · rw [if_pos hi, List.count_cons, if_neg (by simpa using (Ne.symm hqpid)),
          count_filter_ne_other _ hqpid]
        simpa using h.cnt q hq
      · rw [if_neg hi, count_filter_ne_other _ hqpid]
        exact h.cnt q hq
  · intro i pid2 hm
    dsimp only at hm
    obtain ⟨procp, hpmem, hppid⟩ := hmem
    by_cases hi : i = ADJTOSLOT newadj
    · rw [if_pos hi, List.mem_cons] at hm
      cases hm with
      | inl he =>
        refine ⟨g procp, List.mem_map_of_mem g hpmem, ?_⟩
        rw [hgpid, hppid, he]
      | inr hm =>
        rw [mem_filter_ne] at hm
        obtain ⟨q, hq, hqe⟩ := h.closed i pid2 hm.1
        exact ⟨g q, List.mem_map_of_mem g hq, by rw [hgpid]; exact hqe⟩
    · rw [if_neg hi, mem_filter_ne] at hm
      obtain ⟨q, hq, hqe⟩ := h.closed i pid2 hm.1
      exact ⟨g q, List.mem_map_of_mem g hq, by rw [hgpid]; exact hqe⟩

lemma registryOk_register (env : PrioEnv) (params : ProcPrioParams) (cred : Int)
    {r : Registry} (h : RegistryOk r) :
    RegistryOk (register_oom_adj_proc env params cred r) := by
  unfold register_oom_adj_proc
  dsimp only
  cases hl : pid_lookup r params.pid with
  | none =>
    dsimp only
    split
    · exact h
    · refine registryOk_insert h _ (fun q hq => ?_)
      exact pid_lookup_none_forall hl q hq
  | some procp =>
    dsimp only
    split
    · exact registryOk_update h params.pid (register_score env params) cred
        ⟨procp, (pid_lookup_some_mem hl).1, (pid_lookup_some_mem hl).2⟩
    · exact h

lemma registryOk_pid_remove {r : Registry} (h : RegistryOk r) (pid : Int) :
    RegistryOk (pid_remove_reg r pid) := by
  unfold pid_remove_reg
  cases hl : pid_lookup r pid with
  | none => exact h
  | some p => exact registryOk_remove_shape h pid

lemma registryOk_invalidate {r : Registry} (h : RegistryOk r) (pid : Int) :
    RegistryOk (pid_invalidate_reg r pid) := by
  unfold pid_invalidate_reg set_record
  exact registryOk_map h _ (fun q => by split <;> rfl)
    (fun q => by split <;> rfl)

lemma registryOk_unclaim {r : Registry} (h : RegistryOk r) (cred : Int) :
    RegistryOk (remove_claims_reg r cred) := by
  unfold remove_claims_reg
  exact registryOk_map h _ (fun q => by split <;> rfl)
    (fun q => by split <;> rfl)

lemma reach_registryOk {r : Registry} (h : Reach r) : RegistryOk r := by
  induction h with
  | empty => exact registryOk_empty
  | register env params cred _ ih => exact registryOk_register env params cred ih
  | remove pid _ ih => exact registryOk_pid_remove ih pid
  | invalidate pid _ ih => exact registryOk_invalidate ih pid
  | unclaim cred _ ih => exact registryOk_unclaim ih cred

/-- C5: for every PID that has been inserted and not removed, lookup
succeeds and the record lies in exactly one score bucket, the one indexed
by its current oomadj + 1000, in every registry state reachable through
the registry-mutating operations (including a PROCPRIO score update). -/
theorem registry_bucket_invariant (r : Registry) (hr : Reach r) :
    ∀ p ∈ r.hash, pid_lookup r p.pid = some p ∧
      (∀ i : Int, (p.pid ∈ r.buckets i ↔ i = ADJTOSLOT p.oomadj)) ∧
      (r.buckets (ADJTOSLOT p.oomadj)).count p.pid = 1 := by
  intro p hp
  have h := reach_registryOk hr
  exact ⟨find_pid_eq_some h.nodup hp, h.mem_iff p hp, h.cnt p hp⟩

/-- Witness for C5: a freshly registered record is found and sits exactly
in bucket 1100. -/
theorem registry_bucket_invariant_witness :
    pid_lookup c5w_reg c5w_rec.pid = some c5w_rec ∧
    (∀ i : Int, (c5w_rec.pid ∈ c5w_reg.buckets i ↔ i = ADJTOSLOT c5w_rec.oomadj)) ∧
    (c5w_reg.buckets (ADJTOSLOT c5w_rec.oomadj)).count c5w_rec.pid = 1 :=
  registry_bucket_invariant c5w_reg
    (Reach.register c5w_env c5w_params 1 Reach.empty) c5w_rec (by decide)

/-- C9: two `TARGET` commands separated by less than 1000 ms leave all
state set by the command (the minfree/adj tables, the target count and
the published property value) unchanged from the first command; the
second command is rejected before any partial update. -/
theorem target_rate_limit_spec (max_targets : Nat) (st0 : TargetState)
    (n1 n2 : Int) (p1 p2 : List (Int × Int)) (t1 t2 : Int)
    (hn1 : 1 ≤ n1 ∧ n1 ≤ (max_targets : Int))
    (ht1 : TARGET_UPDATE_MIN_INTERVAL_MS ≤ t1 - st0.last_req_tm)
    (hlt : t2 - t1 < 1000) :
    cmd_target max_targets n2 p2 t2 (cmd_target max_targets n1 p1 t1 st0) =
      cmd_target max_targets n1 p1 t1 st0 := by
  have hacc : cmd_target max_targets n1 p1 t1 st0 =
      { lowmem_minfree := (p1.take n1.toNat).map (fun p => p.1),
        lowmem_adj := (p1.take n1.toNat).map (fun p => p.2),
        lowmem_targets_size := n1.toNat,
        last_req_tm := t1,
        minfree_levels_prop := p1.take n1.toNat } := by
    unfold cmd_target
    rw [if_neg (by omega), if_neg (by unfold TARGET_UPDATE_MIN_INTERVAL_MS at ht1 ⊢; omega)]
  rw [hacc]
  unfold cmd_target
  split
  · rfl
  · rw [if_pos (by unfold TARGET_UPDATE_MIN_INTERVAL_MS; simpa using hlt)]

/-- Witness for C9: a concrete accepted TARGET followed 500 ms later by a
second one. -/
theorem target_rate_limit_spec_witness :
    cmd_target 6 2 [(100, 100)] 1500
        (cmd_target 6 1 [(200, 900)] 1000 (TargetState.mk [] [] 0 0 [])) =
      cmd_target 6 1 [(200, 900)] 1000 (TargetState.mk [] [] 0 0 []) :=
  target_rate_limit_spec 6 (TargetState.mk [] [] 0 0 []) 1 2 [(200, 900)] [(100, 100)]
    1000 1500 (by decide) (by decide) (by decide)

/-- C10: a `PROCPRIO` (or `PROCS_PRIO` entry) whose `oomadj` lies outside
[-1000, 1000] or whose process type is not a valid member of the type
enumeration is rejected before any effect: no `oom_score_adj` write is
attempted and the process registry is left unchanged. -/
theorem procprio_invalid_rejected (env : PrioEnv) (params : ProcPrioParams)
    (cred : Int) (r : Registry)
    (h : params.oomadj < OOM_SCORE_ADJ_MIN ∨ OOM_SCORE_ADJ_MAX < params.oomadj ∨
      params.ptype < PROC_TYPE_FIRST ∨ env.proc_type_count ≤ params.ptype) :
    (apply_proc_prio env params cred r).wrote_oom_score_adj = false ∧
    (apply_proc_prio env params cred r).reg = r := by
  unfold apply_proc_prio
  rcases h with h | h | h | h
  · rw [if_pos (Or.inl h)]; exact ⟨rfl, rfl⟩
  · rw [if_pos (Or.inr h)]; exact ⟨rfl, rfl⟩
  all_goals
    by_cases h1 : params.oomadj < OOM_SCORE_ADJ_MIN ∨ OOM_SCORE_ADJ_MAX < params.oomadj
  · rw [if_pos h1]; exact ⟨rfl, rfl⟩
  · rw [if_neg h1, if_pos (Or.inl h)]; exact ⟨rfl, rfl⟩
  · rw [if_pos h1]; exact ⟨rfl, rfl⟩
  · rw [if_neg h1, if_pos (Or.inr h)]; exact ⟨rfl, rfl⟩

/-- Witness for C10: an out-of-range score and an out-of-range type are
both rejected against a nonempty registry. -/
theorem procprio_invalid_rejected_witness :
    ((1001 : Int) < OOM_SCORE_ADJ_MIN ∨ OOM_SCORE_ADJ_MAX < (1001 : Int) ∨
      (0 : Int) < PROC_TYPE_FIRST ∨ (2 : Int) ≤ (0 : Int)) ∧
    (apply_proc_prio
        (PrioEnv.mk 2 (fun _ => none) (fun _ => true) false false false (fun _ => -1))
        (ProcPrioParams.mk 7 0 1001 0) 1
        (proc_insert Registry.empty (ProcRec.mk 7 (-1) 0 0 0 true))).wrote_oom_score_adj =
      false ∧
    (apply_proc_prio
        (PrioEnv.mk 2 (fun _ => none) (fun _ => true) false false false (fun _ => -1))
        (ProcPrioParams.mk 7 0 1001 0) 1
        (proc_insert Registry.empty (ProcRec.mk 7 (-1) 0 0 0 true))).reg =
      proc_insert Registry.empty (ProcRec.mk 7 (-1) 0 0 0 true) := by
  refine ⟨by decide, ?_⟩
  exact procprio_invalid_rejected
    (PrioEnv.mk 2 (fun _ => none) (fun _ => true) false false false (fun _ => -1))
    (ProcPrioParams.mk 7 0 1001 0) 1
    (proc_insert Registry.empty (ProcRec.mk 7 (-1) 0 0 0 true))
    (Or.inr (Or.inl (by decide)))

lemma stop_wait_reg (env : KillEnv) (k : KState) :
    (stop_wait_for_proc_kill env k).reg = k.reg := by
  unfold stop_wait_for_proc_kill
  split
  · rfl
  · split <;> rfl

lemma start_wait_reg (env : KillEnv) (k : KState) (v : Int) :
    (start_wait_for_proc_kill env k v).reg = k.reg := by
  unfold start_wait_for_proc_kill
  dsimp only
  split
  · exact stop_wait_reg env k
  · rfl

lemma pid_lookup_remove_none {k : KState} {pid p : Int}
    (h : pid_lookup k.reg p = none) :
    pid_lookup (pid_remove k pid).reg p = none := by
  unfold pid_remove
  cases hl : pid_lookup k.reg pid with
  | none => exact h
  | some procp =>
    dsimp only
    unfold pid_remove_reg
    rw [hl]
    unfold pid_lookup proc_unslot
    dsimp only
    unfold pid_lookup at h
    rw [List.find?_eq_none] at h ⊢
    intro q hq
    exact h q (List.mem_of_mem_filter hq)

lemma kill_one_reg_none {env : KillEnv} {k : KState} {procp : ProcRec} {p : Int}
    (h : pid_lookup k.reg p = none) :
    pid_lookup ((kill_one_process env k procp).2).reg p = none := by
  unfold kill_one_process
  repeat' split
  all_goals
    apply pid_lookup_remove_none
    try simp only [start_wait_reg, stop_wait_reg]
    exact h

lemma kill_one_reg_self (env : KillEnv) (k : KState) (procp : ProcRec) :
    pid_lookup ((kill_one_process env k procp).2).reg procp.pid = none := by
  unfold kill_one_process
  repeat' split
  all_goals exact pid_lookup_remove_self _ procp.pid

lemma heaviest_loop_reg_none (env : KillEnv) :
    ∀ (l : List Int) (k : KState) (best : Option Int) (ms : Int) {p : Int},
      pid_lookup k.reg p = none →
      pid_lookup ((heaviest_loop env l k best ms).1).reg p = none := by
  intro l
  induction l with
  | nil => intro k best ms p h; exact h
  | cons x xs ih =>
    intro k best ms p h
    unfold heaviest_loop
    dsimp only
    split
    · exact ih _ _ _ (pid_lookup_remove_none h)
    · split
      · exact ih _ _ _ h
      · exact ih _ _ _ h

lemma fak_pick_reg_none (env : KillEnv) (k : KState) (ch : Bool) (i : Int) {p : Int}
    (h : pid_lookup k.reg p = none) :
    pid_lookup ((fak_pick env k ch i).1).reg p = none := by
  unfold fak_pick
  split
  · unfold proc_get_heaviest
    split
    · exact h
    · exact heaviest_loop_reg_none env _ k none 0 h
  · exact h

lemma fak_inner_reg_none (env : KillEnv) (ch : Bool) (i : Int) :
    ∀ (fuel : Nat) (ks : Int) (k : KState) (tr : List Attempt) {p : Int},
      pid_lookup k.reg p = none →
      pid_lookup ((fak_inner env ch i fuel ks k tr).2.1).reg p = none := by
  intro fuel
  induction fuel with
  | zero => intro ks k tr p h; exact h
  | succ n ih =>
    intro ks k tr p h
    unfold fak_inner
    dsimp only
    cases hpk : (fak_pick env k ch i).2 with
    | none => exact fak_pick_reg_none env k ch i h
    | some procp =>
      dsimp only
      split
      · exact kill_one_reg_none (fak_pick_reg_none env k ch i h)
      · exact ih _ _ _ (kill_one_reg_none (fak_pick_reg_none env k ch i h))

lemma fak_outer_reg_none (env : KillEnv) (kh : Bool) (minS : Int) :
    ∀ (fuel : Nat) (i ks : Int) (k : KState) (tr : List Attempt) {p : Int},
      pid_lookup k.reg p = none →
      pid_lookup ((fak_outer env kh minS fuel i ks k tr).2.1).reg p = none := by
  intro fuel
  induction fuel with
  | zero => intro i ks k tr p h; exact h
  | succ n ih =>
    intro i ks k tr p h
    unfold fak_outer
    dsimp only
    split
    · exact h
    · split
      · exact fak_inner_reg_none env _ i _ ks k tr h
      · exact ih _ _ _ _ (fak_inner_reg_none env _ i _ ks k tr h)

lemma fak_inner_append (env : KillEnv) (ch : Bool) (i : Int) :
    ∀ (fuel : Nat) (ks : Int) (k : KState) (tr : List Attempt),
      fak_inner env ch i fuel ks k tr =
        ((fak_inner env ch i fuel ks k []).1, (fak_inner env ch i fuel ks k []).2.1,
          tr ++ (fak_inner env ch i fuel ks k []).2.2) := by
  intro fuel
  induction fuel with
  | zero => intro ks k tr; simp [fak_inner]
  | succ n ih =>
    intro ks k tr
    unfold fak_inner
    dsimp only
    cases hpk : (fak_pick env k ch i).2 with
    | none => simp
    | some procp =>
      dsimp only
      split
      · simp
      · set kr := kill_one_process env (fak_pick env k ch i).1 procp with hkr
        rw [ih kr.1 kr.2 (tr ++ [Attempt.mk i procp.pid ch kr.1]),
          ih kr.1 kr.2 ([] ++ [Attempt.mk i procp.pid ch kr.1])]
        simp

lemma fak_outer_append (env : KillEnv) (kh : Bool) (minS : Int) :
    ∀ (fuel : Nat) (i ks : Int) (k : KState) (tr : List Attempt),
      fak_outer env kh minS fuel i ks k tr =
        ((fak_outer env kh minS fuel i ks k []).1,
         (fak_outer env kh minS fuel i ks k []).2.1,
          tr ++ (fak_outer env kh minS fuel i ks k []).2.2) := by
  intro fuel
  induction fuel with
  | zero => intro i ks k tr; simp [fak_outer]
  | succ n ih =>
    intro i ks k tr
    unfold fak_outer
    dsimp only
    split
    · simp
    · rw [fak_inner_append env _ i _ ks k tr, fak_inner_append env _ i _ ks k []]
      dsimp only
      split
      · simp_all
      · set X := fak_inner env (kh || decide (i ≤ PERCEPTIBLE_APP_ADJ)) i
          (k.reg.hash.length + 1) ks k [] with hX
        rw [ih (i - 1) X.1 X.2.1 (tr ++ ([] ++ X.2.2)),
          ih (i - 1) X.1 X.2.1 ([] ++ X.2.2)]
        simp

lemma list_middle_cases {α : Type} {xs ys l1 l2 : List α} {a : α}
    (h : xs ++ ys = l1 ++ a :: l2) :
    (∃ l2a, xs = l1 ++ a :: l2a ∧ l2 = l2a ++ ys) ∨
    (∃ l1b, l1 = xs ++ l1b ∧ ys = l1b ++ a :: l2) := by
  induction xs generalizing l1 with
  | nil =>
    right
    exact ⟨l1, rfl, h⟩
  | cons x xs ih =>
    cases l1 with
    | nil =>
      left
      rw [List.cons_append] at h
      injection h with h1 h2
      exact ⟨xs, by rw [h1]; rfl, h2.symm⟩
    | cons y l1t =>
      rw [List.cons_append, List.cons_append] at h
      injection h with h1 h2
      cases ih h2 with
      | inl hc =>
        obtain ⟨l2a, ha, hb⟩ := hc
        left
        exact ⟨l2a, by rw [List.cons_append, ha, h1], hb⟩
      | inr hc =>
        obtain ⟨l1b, ha, hb⟩ := hc
        right
        exact ⟨l1b, by rw [List.cons_append, ha, h1], hb⟩

lemma singleton_split {α : Type} {A a : α} {l1 l2 : List α} (h : [A] = l1 ++ a :: l2) :
    l1 = [] ∧ a = A ∧ l2 = [] := by
  cases l1 with
  | nil =>
    injection h with h1 h2
    exact ⟨rfl, h1.symm, h2.symm⟩
  | cons x l1t =>
    rw [List.cons_append] at h
    injection h with h1 h2
    exact absurd h2 (by simp)

lemma getLast_append_singleton {α : Type} (l : List α) (a : α) :
    (l ++ [a]).getLast? = some a := by
  induction l with
  | nil => rfl
  | cons x xs ih =>
    rw [List.cons_append, List.getLast?_cons]
    rw [ih]
    cases xs <;> rfl

lemma fak_inner_spec (env : KillEnv) (ch : Bool) (i : Int) :
    ∀ (fuel : Nat) (ks : Int) (k : KState),
      (∀ a ∈ (fak_inner env ch i fuel ks k []).2.2, a.score = i ∧ a.heaviest = ch) ∧
      (((fak_inner env ch i fuel ks k []).1 = ks ∧
          (fak_inner env ch i fuel ks k []).2.2 = []) ∨
        (∃ l1 a, (fak_inner env ch i fuel ks k []).2.2 = l1 ++ [a] ∧
          a.res = (fak_inner env ch i fuel ks k []).1)) ∧
      (∀ l1 a l2, (fak_inner env ch i fuel ks k []).2.2 = l1 ++ a :: l2 →
        0 ≤ a.res → l2 = []) ∧
      (∀ a ∈ (fak_inner env ch i fuel ks k []).2.2,
        pid_lookup ((fak_inner env ch i fuel ks k []).2.1).reg a.pid = none) := by
  intro fuel
  induction fuel with
  | zero =>
    intro ks k
    refine ⟨by simp [fak_inner], Or.inl ⟨rfl, rfl⟩, ?_, by simp [fak_inner]⟩
    intro l1 a l2 hsplit
    exact absurd hsplit (by simp [fak_inner])
  | succ n ih =>
    intro ks k
    unfold fak_inner
    dsimp only
    cases hpk : (fak_pick env k ch i).2 with
    | none =>
      refine ⟨by simp, Or.inl ⟨rfl, rfl⟩, ?_, by simp⟩
      intro l1 a l2 hsplit
      exact absurd hsplit (by simp)
    | some procp =>
      dsimp only
      set kr := kill_one_process env (fak_pick env k ch i).1 procp with hkr
      split
      · -- kill result non-negative: single final attempt
        refine ⟨?_, ?_, ?_, ?_⟩
        · intro a ha
          rw [List.nil_append, List.mem_singleton] at ha
          subst ha
          exact ⟨rfl, rfl⟩
        · exact Or.inr ⟨[], Attempt.mk i procp.pid ch kr.1, by simp, rfl⟩
        · intro l1 a l2 hsplit hares
          rw [List.nil_append] at hsplit
          exact (singleton_split (show [Attempt.mk i procp.pid ch kr.1] = l1 ++ a :: l2 from hsplit)).2.2
        · intro a ha
          rw [List.nil_append, List.mem_singleton] at ha
          subst ha
          exact kill_one_reg_self env (fak_pick env k ch i).1 procp
      · -- failure: recurse
        rename_i hneg
        rw [fak_inner_append env ch i n kr.1 kr.2 ([] ++ [Attempt.mk i procp.pid ch kr.1])]
        dsimp only
        set Y := fak_inner env ch i n kr.1 kr.2 [] with hY
        obtain ⟨ihA, ihB, ihC, ihD⟩ := ih kr.1 kr.2
        rw [← hY] at ihA ihB ihC ihD
        refine ⟨?_, ?_, ?_, ?_⟩
        · intro a ha
          rw [List.nil_append, List.cons_append, List.mem_cons] at ha
          cases ha with
          | inl ha => subst ha; exact ⟨rfl, rfl⟩
          | inr ha => exact ihA a (by simpa using ha)
        · cases ihB with
          | inl hB =>
            refine Or.inr ⟨[], Attempt.mk i procp.pid ch kr.1, ?_, ?_⟩
            · rw [hB.2]; simp
            · rw [hB.1]
          | inr hB =>
            obtain ⟨l1, a, hsp, hres⟩ := hB
            refine Or.inr ⟨Attempt.mk i procp.pid ch kr.1 :: l1, a, ?_, hres⟩
            rw [hsp]
            simp
        · intro l1 a l2 hsplit hares
          rw [List.nil_append, List.cons_append] at hsplit
          have hmc := @list_middle_cases _ [Attempt.mk i procp.pid ch kr.1]
            Y.2.2 l1 l2 a (by simpa using hsplit)
          cases hmc with
          | inl hc =>
            obtain ⟨l2a, hca, hcb⟩ := hc
            have hsing := singleton_split hca
            rw [hsing.2.1] at hares
            exact absurd hares hneg
          | inr hc =>
            obtain ⟨l1b, hca, hcb⟩ := hc
            exact ihC l1b a l2 hcb hares
        · intro a ha
          rw [List.nil_append, List.cons_append, List.mem_cons] at ha
          cases ha with
          | inl ha =>
            subst ha
            have h0 : pid_lookup kr.2.reg procp.pid = none :=
              kill_one_reg_self env (fak_pick env k ch i).1 procp
            exact fak_inner_reg_none env ch i n kr.1 kr.2 [] h0
          | inr ha => exact ihD a (by simpa using ha)

lemma append_singleton_eq {α : Type} {l1 l2 : List α} {a b : α}
    (h : l1 ++ [a] = l2 ++ [b]) : a = b := by
  have h2 := congrArg List.getLast? h
  rw [getLast_append_singleton, getLast_append_singleton] at h2
  exact Option.some.inj h2

lemma fak_outer_spec (env : KillEnv) (kh : Bool) (minS : Int) :
    ∀ (fuel : Nat) (i : Int) (k : KState),
      (∀ a ∈ (fak_outer env kh minS fuel i 0 k []).2.2,
        minS ≤ a.score ∧ a.score ≤ i ∧
          a.heaviest = (kh || decide (a.score ≤ PERCEPTIBLE_APP_ADJ))) ∧
      (∀ l1 a l2, (fak_outer env kh minS fuel i 0 k []).2.2 = l1 ++ a :: l2 →
        0 < a.res → l2 = [] ∧ (fak_outer env kh minS fuel i 0 k []).1 = a.res) ∧
      (∀ a ∈ (fak_outer env kh minS fuel i 0 k []).2.2,
        pid_lookup ((fak_outer env kh minS fuel i 0 k []).2.1).reg a.pid = none) ∧
      ((fak_outer env kh minS fuel i 0 k []).1 = -1 →
        ∃ l1 a, (fak_outer env kh minS fuel i 0 k []).2.2 = l1 ++ [a] ∧ a.res = -1) := by
  intro fuel
  induction fuel with
  | zero =>
    intro i k
    refine ⟨by simp [fak_outer], ?_, by simp [fak_outer], by simp [fak_outer]⟩
    intro l1 a l2 hsplit
    exact absurd hsplit (by simp [fak_outer])
  | succ n ih =>
    intro i k
    unfold fak_outer
    dsimp only
    split
    · -- i < min_score_adj: walk ends with empty trace
      refine ⟨by simp, ?_, by simp, by simp⟩
      intro l1 a l2 hsplit
      exact absurd hsplit (by simp)
    · rename_i hge
      set X := fak_inner env (kh || decide (i ≤ PERCEPTIBLE_APP_ADJ)) i
        (k.reg.hash.length + 1) 0 k [] with hX
      obtain ⟨innA, innB, innC, innD⟩ :=
        fak_inner_spec env (kh || decide (i ≤ PERCEPTIBLE_APP_ADJ)) i
          (k.reg.hash.length + 1) 0 k
      rw [← hX] at innA innB innC innD
      split
      · -- killed_size nonzero after this score: walk stops, result is X
        rename_i hstop
        refine ⟨?_, ?_, innD, ?_⟩
        · intro a ha
          obtain ⟨hsc, hhv⟩ := innA a ha
          rw [hsc]
          exact ⟨le_of_not_lt hge, le_refl i, by rw [hhv]⟩
        · intro l1 a l2 hsplit hares
          have hl2 : l2 = [] := innC l1 a l2 hsplit (le_of_lt hares)
          cases innB with
          | inl hB =>
            rw [hB.2] at hsplit
            exact absurd hsplit.symm (by simp)
          | inr hB =>
            obtain ⟨l1b, b, hspb, hresb⟩ := hB
            rw [hl2] at hsplit
            have hab : a = b := append_singleton_eq (hsplit.symm.trans hspb)
            exact ⟨hl2, by rw [← hresb, hab]⟩
        · intro hres
          cases innB with
          | inl hB => exact absurd (hres ▸ hB.1.symm) (by norm_num)
          | inr hB =>
            obtain ⟨l1b, b, hspb, hresb⟩ := hB
            exact ⟨l1b, b, hspb, by rw [hresb, hres]⟩
      · -- killed_size still zero: continue to next score
        rename_i hcont
        have hX0 : X.1 = 0 := by
          by_contra hne
          exact hcont hne
        rw [fak_outer_append env kh minS n (i - 1) X.1 X.2.1 X.2.2, hX0]
        set Z := fak_outer env kh minS n (i - 1) 0 X.2.1 [] with hZ
        obtain ⟨ihA, ihB, ihC, ihD⟩ := ih (i - 1) X.2.1
        rw [← hZ] at ihA ihB ihC ihD
        refine ⟨?_, ?_, ?_, ?_⟩
        · intro a ha
          rw [List.mem_append] at ha
          cases ha with
          | inl ha =>
            obtain ⟨hsc, hhv⟩ := innA a ha
            rw [hsc]
            exact ⟨le_of_not_lt hge, le_refl i, by rw [hhv]⟩
          | inr ha =>
            obtain ⟨h1, h2, h3⟩ := ihA a ha
            exact ⟨h1, by omega, h3⟩
        · intro l1 a l2 hsplit hares
          have hmc := @list_middle_cases _ X.2.2 Z.2.2 l1 l2 a hsplit
          cases hmc with
          | inl hc =>
            obtain ⟨l2a, hca, hcb⟩ := hc
            have hl2a : l2a = [] := innC l1 a l2a hca (le_of_lt hares)
            rw [hl2a] at hca
            cases innB with
            | inl hB =>
              rw [hB.2] at hca
              exact absurd hca (by simp)
            | inr hB =>
              obtain ⟨l1b, b, hspb, hresb⟩ := hB
              have hab : a = b := append_singleton_eq (hca.symm.trans hspb)
              rw [hab, hresb, hX0] at hares
              exact absurd hares (by norm_num)
          | inr hc =>
            obtain ⟨l1b, hca, hcb⟩ := hc
            exact ihB l1b a l2 hcb hares
        · intro a ha
          rw [List.mem_append] at ha
          cases ha with
          | inl ha =>
            have h0 := innD a ha
            exact fak_outer_reg_none env kh minS n (i - 1) 0 X.2.1 [] h0
          | inr ha => exact ihC a ha
        · intro hres
          obtain ⟨l1, a, hsp, hra⟩ := ihD hres
          refine ⟨X.2.2 ++ l1, a, ?_, hra⟩
          rw [hsp, List.append_assoc]

/-- C4 counterexample. Two deviations from the claimed walk in one
scenario family. (1) With the stale pid 1 alone at score 1000, the failed
kill leaves `killed_size = -1`; when the score-1000 bucket is then
exhausted, `find_and_kill_process` (lmkd.cpp:2569-2571) aborts the whole
walk and returns -1: the healthy pid 2 at score 900 — inside the claimed
walk range [0, 1000] and still present in the final registry — is never
attempted, contradicting the claim that the walk continues down to
min_score trying the next candidates. (2) With pid 1 killable but freeing
0 pages, the first successful kill does NOT stop the walk: a second kill
(pid 2) follows and its 100 pages are returned, contradicting
"the first successful kill stops the walk and its freed RSS is
returned". -/
theorem find_and_kill_walk_cex :
    (find_and_kill_process c4cex_env false 0 c4cex_k).1 = -1 ∧
    (find_and_kill_process c4cex_env false 0 c4cex_k).2.2 =
      [Attempt.mk 1000 1 false (-1)] ∧
    pid_lookup ((find_and_kill_process c4cex_env false 0 c4cex_k).2.1).reg 2 =
      some c4cex_rec2 ∧
    c4cex_rec2.oomadj = 900 ∧
    (find_and_kill_process c4cex_envZ false 0 c4cex_k).2.2 =
      [Attempt.mk 1000 1 false 0, Attempt.mk 900 2 false 100] ∧
    (find_and_kill_process c4cex_envZ false 0 c4cex_k).1 = 100 := by
  refine ⟨?_, ?_, ?_, ?_, ?_, ?_⟩ <;> decide

/-- C4, amended: for `min_score` in [-1000, 1000], every kill attempt of
`find_and_kill_process` (lmkd.cpp:2539-2575) is at a score in
[min_score, 1000], and selects the heaviest candidate exactly when
`kill_heaviest_task` is set or the score is at or below
PERCEPTIBLE_APP_ADJ (200); a kill that frees a nonzero number of pages is
the last attempt and its page count is the returned value; every
attempted candidate's record is removed from the registry; and a -1
return means the last attempt was a failed kill (the walk aborts when a
score's bucket is exhausted after a failure, rather than moving on). -/
theorem find_and_kill_spec (env : KillEnv) (kh : Bool) (minS : Int) (k : KState)
    (_hmin : OOM_SCORE_ADJ_MIN ≤ minS) (_hmax : minS ≤ OOM_SCORE_ADJ_MAX) :
    (∀ a ∈ (find_and_kill_process env kh minS k).2.2,
      minS ≤ a.score ∧ a.score ≤ OOM_SCORE_ADJ_MAX ∧
        a.heaviest = (kh || decide (a.score ≤ PERCEPTIBLE_APP_ADJ))) ∧
    (∀ l1 a l2, (find_and_kill_process env kh minS k).2.2 = l1 ++ a :: l2 →
      0 < a.res → l2 = [] ∧ (find_and_kill_process env kh minS k).1 = a.res) ∧
    (∀ a ∈ (find_and_kill_process env kh minS k).2.2,
      pid_lookup ((find_and_kill_process env kh minS k).2.1).reg a.pid = none) ∧
    ((find_and_kill_process env kh minS k).1 = -1 →
      ∃ l1 a, (find_and_kill_process env kh minS k).2.2 = l1 ++ [a] ∧
        a.res = -1) := by
  unfold find_and_kill_process
  exact fak_outer_spec env kh minS ((OOM_SCORE_ADJ_MAX - minS).toNat + 2)
    OOM_SCORE_ADJ_MAX k

/-- Witness for the C4 amended theorem at a concrete input: min score
900 over the stale-pid registry; the walk aborts with -1 and the spec
locates the failed last attempt. -/
theorem find_and_kill_spec_witness :
    OOM_SCORE_ADJ_MIN ≤ (900 : Int) ∧ (900 : Int) ≤ OOM_SCORE_ADJ_MAX ∧
    ((find_and_kill_process c4cex_env false 900 c4cex_k).1 = -1 →
      ∃ l1 a, (find_and_kill_process c4cex_env false 900 c4cex_k).2.2 =
        l1 ++ [a] ∧ a.res = -1) :=
  ⟨by decide, by decide,
    (find_and_kill_spec c4cex_env false 900 c4cex_k (by decide) (by decide)).2.2.2⟩

end Lmkd
